import Mathlib

/-!
Verification of the seccomp sandbox policy compiler in
`src/linux/tor/src/lib/sandbox/sandbox.c`.

The development shallowly embeds the sandbox subsystem:

* seccomp rules are data (`Cond`, `Rule`), and the kernel's decision on a
  syscall request is `decision` (default deny with `EPERM`, as set up by
  `seccomp_init(SCMP_ACT_ERRNO(EPERM))`);
* syscalls are identified by their names (the C code resolves names to
  per-architecture numbers through `SCMP_SYS`, which is injective on names),
  plus the phony opendir identifier `PHONY_OPENDIR_SYSCALL`;
* platform-conditional compilation (`#ifdef __NR_...`, libc version checks)
  is captured by a `Platform` record of booleans and the parsed libc version;
* the string-protection arena (`prot_strings` / `prot_strings_helper`) is
  modelled with explicit offsets relative to the `mmap` base, with the
  interning map (`strmap_t`) as an association list;
* the process-global state (`sandbox_active`, `filter_dynamic`, the set of
  filters loaded into the kernel) is threaded explicitly through the
  lifecycle functions (`install_syscall_filter`, `sandbox_init`, ...).

Machine pointers/lengths are modelled as `Nat` (seccomp datums are unsigned
64-bit; all values in play are far below `2^64`, and the two negative
constants that occur, the two encodings of `AT_FDCWD`, are modelled by their
unsigned reinterpretations exactly as the source computes them).
-/

set_option autoImplicit false
set_option linter.unusedVariables false

namespace Sandbox

/-! ### seccomp rule model -/

/-- A datum in a seccomp comparison or a syscall argument: either a numeric
value (modelled as `Nat`, seccomp datums being unsigned 64-bit) or a string
pointer, identified by its contents (after interning, string contents and
canonical pointers are in bijection). -/
inductive Datum where
  | num (n : Nat)
  | str (s : String)
  deriving DecidableEq, Repr

/-- Comparison operators used by the sandbox: `SCMP_CMP_EQ`, `SCMP_CMP_LT`,
`SCMP_CMP_LE`, `SCMP_CMP_GT` and `SCMP_CMP_MASKED_EQ` (with its mask). -/
inductive CmpOp where
  | eq
  | lt
  | le
  | gt
  | maskedEq (mask : Nat)
  deriving DecidableEq, Repr

/-- One argument comparison of a seccomp rule: `SCMP_CMP(arg, op, datum)`. -/
structure Cond where
  arg : Nat
  op : CmpOp
  dat : Datum
  deriving DecidableEq, Repr

/-- A seccomp rule: a syscall name and the conjunction of its argument
comparisons.  The action (`SCMP_ACT_ALLOW` vs `SCMP_ACT_KILL`) is recorded by
which list of the compiled filter the rule lives in. -/
structure Rule where
  sys : String
  conds : List Cond
  deriving DecidableEq, Repr

/-- A syscall request as seen by the kernel filter: syscall name plus its
argument values. -/
structure Request where
  sys : String
  args : List Datum
  deriving DecidableEq, Repr

/-- Does one comparison hold of an argument value?  Mirrors the kernel's
unsigned datum comparisons; `SCMP_CMP_LT` holds when the argument is less
than the rule's datum, etc. -/
def holdsCmp : CmpOp → Datum → Datum → Bool
  | .eq, d, a => d == a
  | .lt, .num d, .num a => a < d
  | .le, .num d, .num a => a ≤ d
  | .gt, .num d, .num a => a > d
  | .maskedEq m, .num d, .num a => a.land m == d
  | _, _, _ => false

/-- One condition of a rule holds of a request. -/
def condHolds (req : Request) (c : Cond) : Bool :=
  match req.args.get? c.arg with
  | some a => holdsCmp c.op c.dat a
  | none => false

/-- A rule matches a request: same syscall, all conditions hold. -/
def ruleMatches (r : Rule) (req : Request) : Bool :=
  r.sys == req.sys && r.conds.all (condHolds req)

/-- A compiled filter: the `SCMP_ACT_KILL` rules and the `SCMP_ACT_ALLOW`
rules accumulated in the `scmp_filter_ctx`. -/
structure SeccompFilter where
  kills : List Rule
  allows : List Rule
  deriving DecidableEq, Repr

/-- Possible outcomes of the kernel filter on one syscall. -/
inductive SeccompAction where
  | allow
  | denyEperm
  | kill
  deriving DecidableEq, Repr

/-- The kernel's decision for a request: a matching kill rule kills, else a
matching allow rule allows, else the default action `SCMP_ACT_ERRNO(EPERM)`
denies. -/
def decision (f : SeccompFilter) (req : Request) : SeccompAction :=
  if f.kills.any (fun r => ruleMatches r req) then .kill
  else if f.allows.any (fun r => ruleMatches r req) then .allow
  else .denyEperm

/-! ### Constants

Numeric constants from the Linux/glibc headers used by sandbox.c, with their
x86-64 values. -/

/-- `MALLOC_MP_LIM`, the 20 MB canary in front of the protected strings. -/
def MALLOC_MP_LIM : Nat := 20 * 1024 * 1024

def PROT_NONE : Nat := 0
def PROT_READ : Nat := 1
def PROT_WRITE : Nat := 2
def PROT_EXEC : Nat := 4
def MAP_PRIVATE : Nat := 2
def MAP_FIXED : Nat := 16
def MAP_ANONYMOUS : Nat := 32
def MAP_DENYWRITE : Nat := 2048
def MAP_NORESERVE : Nat := 16384
def MAP_STACK : Nat := 131072
def MREMAP_MAYMOVE : Nat := 1

def O_RDONLY : Nat := 0
def O_RDWR : Nat := 2
def O_NONBLOCK : Nat := 2048
def O_LARGEFILE : Nat := 32768
def O_DIRECTORY : Nat := 65536
def O_CLOEXEC : Nat := 524288

def SOCK_STREAM : Nat := 1
def SOCK_DGRAM : Nat := 2
def SOCK_RAW : Nat := 3
def SOCK_NONBLOCK : Nat := 2048
def SOCK_CLOEXEC : Nat := 524288

def PF_FILE : Nat := 1
def PF_UNIX : Nat := 1
def PF_INET : Nat := 2
def PF_INET6 : Nat := 10
def PF_NETLINK : Nat := 16

def IPPROTO_IP : Nat := 0
def IPPROTO_TCP : Nat := 6
def IPPROTO_UDP : Nat := 17
def IPPROTO_IPV6 : Nat := 41

def SOL_IP : Nat := 0
def SOL_SOCKET : Nat := 1
def SOL_TCP : Nat := 6
def SOL_IPV6 : Nat := 41
def SO_REUSEADDR : Nat := 2
def SO_ERROR : Nat := 4
def SO_SNDBUF : Nat := 7
def SO_RCVBUF : Nat := 8
def SO_ACCEPTCONN : Nat := 30
def SO_SNDBUFFORCE : Nat := 32
def SO_ORIGINAL_DST : Nat := 80
def IP6T_SO_ORIGINAL_DST : Nat := 80
def IP_TRANSPARENT : Nat := 19
def IPV6_V6ONLY : Nat := 26
def TCP_INFO : Nat := 11

def F_GETFD : Nat := 1
def F_SETFD : Nat := 2
def F_GETFL : Nat := 3
def F_SETFL : Nat := 4
def FD_CLOEXEC : Nat := 1

def EPOLL_CTL_ADD : Nat := 1
def EPOLL_CTL_DEL : Nat := 2
def EPOLL_CTL_MOD : Nat := 3

def PR_SET_DUMPABLE : Nat := 4

def LOCK_EX : Nat := 2
def LOCK_NB : Nat := 4
def LOCK_UN : Nat := 8

def FUTEX_WAIT_PRIVATE : Nat := 128
def FUTEX_WAKE_PRIVATE : Nat := 129
def FUTEX_WAIT_BITSET_PRIVATE_CLOCK_REALTIME : Nat := 393

def SIG_UNBLOCK : Nat := 1
def SIG_SETMASK : Nat := 2

def SIGHUP : Nat := 1
def SIGINT : Nat := 2
def SIGILL : Nat := 4
def SIGBUS : Nat := 7
def SIGFPE : Nat := 8
def SIGUSR1 : Nat := 10
def SIGSEGV : Nat := 11
def SIGUSR2 : Nat := 12
def SIGPIPE : Nat := 13
def SIGTERM : Nat := 15
def SIGCHLD : Nat := 17
def SIGXFSZ : Nat := 25
def SIGIO : Nat := 29
def SIGSYS : Nat := 31

def SIOCOUTQNSD : Nat := 35147

/-- `~(scmp_datum_t) b`: complement of a mask in an unsigned 64-bit datum. -/
def datumComplement (b : Nat) : Nat := 2 ^ 64 - 1 - b

/-! ### Platform capability probe

`Platform` gathers everything the compilation of the filter depends on: the
parsed glibc version (`tor_sscanf(version, "%d.%d", ...)` results; `-1` when
unparsed), whether `CHECK_LIBC_VERSION` is available, and one boolean per
`#ifdef` that conditions a rule in sandbox.c. -/

structure Platform where
  hasGnuLibcVersion : Bool
  libcMajor : Int
  libcMinor : Int
  isI386 : Bool
  hasClone3 : Bool
  hasEpollPwait : Bool
  hasEventfd : Bool
  hasPipe2 : Bool
  hasPipe : Bool
  hasFchmod : Bool
  hasFstat64 : Bool
  hasGetegid32 : Bool
  hasGeteuid32 : Bool
  hasGetgid32 : Bool
  hasGetrlimit : Bool
  hasGetuid32 : Bool
  hasLlseek : Bool
  hasMmap : Bool
  hasNanosleep : Bool
  hasPrlimit : Bool
  hasPrlimit64 : Bool
  hasRseq : Bool
  hasSchedYield : Bool
  hasSetrlimit : Bool
  hasSigaltstack : Bool
  hasSigreturn : Bool
  hasStat64 : Bool
  hasGetrandom : Bool
  hasSysinfo : Bool
  enableNss : Bool
  hasGetpeername : Bool
  hasUnlinkat : Bool
  hasTime : Bool
  hasMmap2 : Bool
  hasFcntl64 : Bool
  hasKistSupport : Bool
  hasSystemd : Bool
  hasIpTransparent : Bool
  hasIpv6Only : Bool
  hasNetfilterIpv4 : Bool
  hasNetfilterIpv6 : Bool
  hasKill : Bool
  hasSigXfsz : Bool
  hasNewfstatat : Bool
  deriving DecidableEq, Repr

/-- A typical modern x86-64 Linux platform, used for concrete evaluations. -/
def linux_x86_64 : Platform where
  hasGnuLibcVersion := true
  libcMajor := 2
  libcMinor := 31
  isI386 := false
  hasClone3 := true
  hasEpollPwait := true
  hasEventfd := true
  hasPipe2 := true
  hasPipe := true
  hasFchmod := true
  hasFstat64 := false
  hasGetegid32 := false
  hasGeteuid32 := false
  hasGetgid32 := false
  hasGetrlimit := true
  hasGetuid32 := false
  hasLlseek := false
  hasMmap := true
  hasNanosleep := true
  hasPrlimit := false
  hasPrlimit64 := true
  hasRseq := true
  hasSchedYield := true
  hasSetrlimit := true
  hasSigaltstack := true
  hasSigreturn := false
  hasStat64 := false
  hasGetrandom := true
  hasSysinfo := true
  enableNss := false
  hasGetpeername := false
  hasUnlinkat := true
  hasTime := true
  hasMmap2 := false
  hasFcntl64 := false
  hasKistSupport := false
  hasSystemd := false
  hasIpTransparent := true
  hasIpv6Only := true
  hasNetfilterIpv4 := false
  hasNetfilterIpv6 := false
  hasKill := true
  hasSigXfsz := true
  hasNewfstatat := true

/-- `is_libc_at_least(major, minor)`: without `CHECK_LIBC_VERSION` it returns
false; otherwise it compares the parsed version lexicographically. -/
def is_libc_at_least (p : Platform) (major minor : Int) : Bool :=
  if p.hasGnuLibcVersion then
    if p.libcMajor > major then true
    else if p.libcMajor == major && p.libcMinor >= minor then true
    else false
  else false

/-- `libc_uses_openat_for_open()`. -/
def libc_uses_openat_for_open (p : Platform) : Bool :=
  is_libc_at_least p 2 26

/-- `libc_uses_openat_for_opendir()`:
libc 2.27 and above, or between 2.15 (inclusive) and 2.22 (exclusive). -/
def libc_uses_openat_for_opendir (p : Platform) : Bool :=
  is_libc_at_least p 2 27 ||
    (is_libc_at_least p 2 15 && !is_libc_at_least p 2 22)

/-- `libc_negative_constant_needs_cast()`. -/
def libc_negative_constant_needs_cast (p : Platform) : Bool :=
  is_libc_at_least p 2 27

/-- The datum `SCMP_CMP_NEG(_, _, AT_FDCWD)` compares against: the unsigned
reinterpretation of `-100`, either as `unsigned int` (when the libc needs the
cast) or as a sign-extended pointer-sized value. -/
def fdcwdDatum (p : Platform) : Nat :=
  if libc_negative_constant_needs_cast p then 2 ^ 32 - 100 else 2 ^ 64 - 100

/-! ### Dynamic exception registry -/

/-- The syscall identifier stored in an `smp_param_t`: a real syscall (by
name; `SCMP_SYS` maps names to numbers injectively) or the phony opendir
identifier `PHONY_OPENDIR_SYSCALL` (`-2`, distinct from every real number). -/
inductive SysId where
  | real (name : String)
  | phonyOpendir
  deriving DecidableEq, Repr

/-- An `smp_param_t`, generic in the representation of its string fields
(`String` for plain heap strings, `PStr` once interned into the arena):
syscall identifier, one or two string arguments, and the protection flag. -/
structure SmpParamG (σ : Type) where
  syscall : SysId
  value : σ
  value2 : Option σ
  prot : Bool
  deriving DecidableEq, Repr

/-- `new_element2`: fresh entries are unprotected. -/
def new_element2 (syscall : SysId) (value : String) (value2 : Option String) :
    SmpParamG String :=
  ⟨syscall, value, value2, false⟩

/-- `new_element`. -/
def new_element (syscall : SysId) (value : String) : SmpParamG String :=
  new_element2 syscall value none

/-- `SCMP_stat`: `stat64` where `__NR_stat64` exists, else `stat`. -/
def SCMP_stat (p : Platform) : SysId :=
  if p.hasStat64 then .real "stat64" else .real "stat"

/-!
The seven registration functions.  Each takes the process-global
`sandbox_active` flag as an explicit first argument: the C functions have
access to that global but never read it, which the Lean functions mirror by
ignoring the argument.  Each returns the C result code together with the
updated `cfg` list (the C mutates `*cfg` by prepending).
-/

def sandbox_cfg_allow_stat_filename (sactive : Nat) (p : Platform)
    (cfg : List (SmpParamG String)) (file : String) :
    Int × List (SmpParamG String) :=
  (0, new_element (SCMP_stat p) file :: cfg)

def sandbox_cfg_allow_open_filename (sactive : Nat)
    (cfg : List (SmpParamG String)) (file : String) :
    Int × List (SmpParamG String) :=
  (0, new_element (.real "open") file :: cfg)

def sandbox_cfg_allow_chmod_filename (sactive : Nat)
    (cfg : List (SmpParamG String)) (file : String) :
    Int × List (SmpParamG String) :=
  (0, new_element (.real "chmod") file :: cfg)

def sandbox_cfg_allow_chown_filename (sactive : Nat)
    (cfg : List (SmpParamG String)) (file : String) :
    Int × List (SmpParamG String) :=
  (0, new_element (.real "chown") file :: cfg)

def sandbox_cfg_allow_rename (sactive : Nat)
    (cfg : List (SmpParamG String)) (file1 file2 : String) :
    Int × List (SmpParamG String) :=
  (0, new_element2 (.real "rename") file1 (some file2) :: cfg)

def sandbox_cfg_allow_openat_filename (sactive : Nat)
    (cfg : List (SmpParamG String)) (file : String) :
    Int × List (SmpParamG String) :=
  (0, new_element (.real "openat") file :: cfg)

def sandbox_cfg_allow_opendir_dirname (sactive : Nat)
    (cfg : List (SmpParamG String)) (dir : String) :
    Int × List (SmpParamG String) :=
  (0, new_element .phonyOpendir dir :: cfg)

/-- One registration request, for stating end-to-end properties about
"sequences of allow-path registrations". -/
inductive RegCmd where
  | openF (f : String)
  | statF (f : String)
  | chmodF (f : String)
  | chownF (f : String)
  | renameF (a b : String)
  | openatF (f : String)
  | opendirF (d : String)
  deriving DecidableEq, Repr

/-- Apply one registration call to the caller's cfg list. -/
def applyCmd (p : Platform) (cfg : List (SmpParamG String)) :
    RegCmd → List (SmpParamG String)
  | .openF f => (sandbox_cfg_allow_open_filename 0 cfg f).2
  | .statF f => (sandbox_cfg_allow_stat_filename 0 p cfg f).2
  | .chmodF f => (sandbox_cfg_allow_chmod_filename 0 cfg f).2
  | .chownF f => (sandbox_cfg_allow_chown_filename 0 cfg f).2
  | .renameF a b => (sandbox_cfg_allow_rename 0 cfg a b).2
  | .openatF f => (sandbox_cfg_allow_openat_filename 0 cfg f).2
  | .opendirF d => (sandbox_cfg_allow_opendir_dirname 0 cfg d).2

/-- The registry produced by a sequence of registrations, starting from
`sandbox_cfg_new()` (the null list). -/
def buildCfg (p : Platform) (cmds : List RegCmd) : List (SmpParamG String) :=
  cmds.foldl (applyCmd p) []

/-- The entry a single registration prepends. -/
def cmdEntry (p : Platform) : RegCmd → SmpParamG String
  | .openF f => new_element (.real "open") f
  | .statF f => new_element (SCMP_stat p) f
  | .chmodF f => new_element (.real "chmod") f
  | .chownF f => new_element (.real "chown") f
  | .renameF a b => new_element2 (.real "rename") a (some b)
  | .openatF f => new_element (.real "openat") f
  | .opendirF d => new_element .phonyOpendir d

/-- All string contents referenced by a registry (`value` and `value2` of
every entry). -/
def cfgStrings (cfg : List (SmpParamG String)) : List String :=
  cfg.flatMap (fun e => e.value :: e.value2.toList)

/-- `prot_strings` leaves each entry's syscall and string contents unchanged
and sets its protection flag; this is its effect seen at content level. -/
def protectAll (cfg : List (SmpParamG String)) : List (SmpParamG String) :=
  cfg.map (fun e => { e with prot := true })

/-! ### `#ifdef`-guarded lists -/

/-- Keep the elements whose guard is compiled in. -/
def condList {α : Type} (l : List (Bool × α)) : List α :=
  l.filterMap (fun x => if x.1 then some x.2 else none)

/-! ### The parameterless allow-list (`filter_nopar_gen`) -/

/-- The `filter_nopar_gen` array, entries guarded exactly as in the source. -/
def noparTable (p : Platform) : List (Bool × String) :=
  [(true, "access"),
   (true, "brk"),
   (true, "clock_gettime"),
   (true, "close"),
   (true, "clone"),
   (true, "dup"),
   (p.hasClone3, "clone3"),
   (true, "epoll_create"),
   (true, "epoll_wait"),
   (p.hasEpollPwait, "epoll_pwait"),
   (p.hasEventfd, "eventfd2"),
   (p.hasPipe2, "pipe2"),
   (p.hasPipe, "pipe"),
   (p.hasFchmod, "fchmod"),
   (true, "fcntl"),
   (true, "fstat"),
   (p.hasFstat64, "fstat64"),
   (true, "fsync"),
   (true, "futex"),
   (true, "getdents"),
   (true, "getdents64"),
   (true, "getegid"),
   (p.hasGetegid32, "getegid32"),
   (true, "geteuid"),
   (p.hasGeteuid32, "geteuid32"),
   (true, "getgid"),
   (p.hasGetgid32, "getgid32"),
   (true, "getpid"),
   (p.hasGetrlimit, "getrlimit"),
   (true, "gettimeofday"),
   (true, "gettid"),
   (true, "getuid"),
   (p.hasGetuid32, "getuid32"),
   (true, "lseek"),
   (p.hasLlseek, "_llseek"),
   (true, "lstat"),
   (true, "mkdir"),
   (true, "mlockall"),
   (p.hasMmap, "mmap"),
   (true, "munmap"),
   (p.hasNanosleep, "nanosleep"),
   (p.hasPrlimit, "prlimit"),
   (p.hasPrlimit64, "prlimit64"),
   (true, "read"),
   (true, "rt_sigreturn"),
   (p.hasRseq, "rseq"),
   (true, "sched_getaffinity"),
   (p.hasSchedYield, "sched_yield"),
   (true, "sendmsg"),
   (true, "set_robust_list"),
   (p.hasSetrlimit, "setrlimit"),
   (true, "shutdown"),
   (p.hasSigaltstack, "sigaltstack"),
   (p.hasSigreturn, "sigreturn"),
   (true, "stat"),
   (true, "uname"),
   (true, "wait4"),
   (true, "write"),
   (true, "writev"),
   (true, "exit_group"),
   (true, "exit"),
   (true, "madvise"),
   (p.hasStat64, "stat64"),
   (p.hasGetrandom, "getrandom"),
   (p.hasSysinfo, "sysinfo"),
   (p.isI386, "recv"),
   (p.isI386, "send"),
   (true, "bind"),
   (true, "listen"),
   (true, "connect"),
   (true, "getsockname"),
   (p.enableNss && p.hasGetpeername, "getpeername"),
   (true, "recvmsg"),
   (true, "recvfrom"),
   (true, "sendto"),
   (true, "unlink"),
   (p.hasUnlinkat, "unlinkat"),
   (true, "poll")]

/-- `add_noparam_filter`: every syscall in `filter_nopar_gen` gets an
unconditional allow rule, and on libc ≥ 2.33 so does `newfstatat`. -/
def add_noparam_filter (p : Platform) : List Rule :=
  (condList (noparTable p ++
    [(is_libc_at_least p 2 33 && p.hasNewfstatat, "newfstatat")])).map
    (fun s => ⟨s, []⟩)

/-! ### Parameterized rule installers (`sb_*`)

Each `sb_*` function below returns the allow rules the corresponding C
function adds to the context (in order).  Rule-add failures are modelled at
the lifecycle level (`InstallEnv`), not here. -/

/-- `allow_file_open`: openat-with-`AT_FDCWD` rule or plain open rule. -/
def allow_file_open (p : Platform) (use_openat : Bool) (file : String) : Rule :=
  if use_openat then
    ⟨"openat", [⟨0, .eq, .num (fdcwdDatum p)⟩, ⟨1, .eq, .str file⟩]⟩
  else
    ⟨"open", [⟨0, .eq, .str file⟩]⟩

def sb_rt_sigaction (p : Platform) : List Rule :=
  (condList
    [(true, SIGINT), (true, SIGTERM), (true, SIGPIPE), (true, SIGUSR1),
     (true, SIGUSR2), (true, SIGHUP), (true, SIGCHLD), (true, SIGSEGV),
     (true, SIGILL), (true, SIGFPE), (true, SIGBUS), (true, SIGSYS),
     (true, SIGIO), (p.hasSigXfsz, SIGXFSZ)]).map
    (fun sig => ⟨"rt_sigaction", [⟨0, .eq, .num sig⟩]⟩)

def sb_rt_sigprocmask (p : Platform) : List Rule :=
  [⟨"rt_sigprocmask", [⟨0, .eq, .num SIG_UNBLOCK⟩]⟩,
   ⟨"rt_sigprocmask", [⟨0, .eq, .num SIG_SETMASK⟩]⟩]

def sb_time (p : Platform) : List Rule :=
  condList [(p.hasTime, ⟨"time", [⟨0, .eq, .num 0⟩]⟩)]

def sb_accept4 (p : Platform) : List Rule :=
  condList
    [(p.isI386, ⟨"socketcall", [⟨0, .eq, .num 18⟩]⟩),
     (true, ⟨"accept4",
       [⟨3, .maskedEq (datumComplement (SOCK_CLOEXEC ||| SOCK_NONBLOCK)),
         .num 0⟩]⟩)]

def sb_mmap2 (p : Platform) : List Rule :=
  [⟨"mmap2", [⟨2, .eq, .num PROT_READ⟩, ⟨3, .eq, .num MAP_PRIVATE⟩]⟩,
   ⟨"mmap2", [⟨2, .eq, .num PROT_NONE⟩,
              ⟨3, .eq, .num (MAP_PRIVATE ||| MAP_ANONYMOUS ||| MAP_NORESERVE)⟩]⟩,
   ⟨"mmap2", [⟨2, .eq, .num (PROT_READ ||| PROT_WRITE)⟩,
              ⟨3, .eq, .num (MAP_PRIVATE ||| MAP_ANONYMOUS)⟩]⟩,
   ⟨"mmap2", [⟨2, .eq, .num (PROT_READ ||| PROT_WRITE)⟩,
              ⟨3, .eq, .num (MAP_PRIVATE ||| MAP_ANONYMOUS ||| MAP_STACK)⟩]⟩,
   ⟨"mmap2", [⟨2, .eq, .num (PROT_READ ||| PROT_WRITE)⟩,
              ⟨3, .eq, .num (MAP_PRIVATE ||| MAP_FIXED ||| MAP_DENYWRITE)⟩]⟩,
   ⟨"mmap2", [⟨2, .eq, .num (PROT_READ ||| PROT_WRITE)⟩,
              ⟨3, .eq, .num (MAP_PRIVATE ||| MAP_FIXED ||| MAP_ANONYMOUS)⟩]⟩,
   ⟨"mmap2", [⟨2, .eq, .num (PROT_READ ||| PROT_EXEC)⟩,
              ⟨3, .eq, .num (MAP_PRIVATE ||| MAP_DENYWRITE)⟩]⟩]

/-- `sb_chown`: one rule per protected chown entry. -/
def sb_chown (p : Platform) (cfg : List (SmpParamG String)) : List Rule :=
  cfg.filterMap (fun e =>
    if e.prot && e.syscall == SysId.real "chown" then
      some ⟨"chown", [⟨0, .eq, .str e.value⟩]⟩
    else none)

/-- `sb_chmod`: one rule per protected chmod entry. -/
def sb_chmod (p : Platform) (cfg : List (SmpParamG String)) : List Rule :=
  cfg.filterMap (fun e =>
    if e.prot && e.syscall == SysId.real "chmod" then
      some ⟨"chmod", [⟨0, .eq, .str e.value⟩]⟩
    else none)

/-- `sb_open`: one `allow_file_open` rule per protected open entry, using
`libc_uses_openat_for_open()`. -/
def sb_open (p : Platform) (cfg : List (SmpParamG String)) : List Rule :=
  cfg.filterMap (fun e =>
    if e.prot && e.syscall == SysId.real "open" then
      some (allow_file_open p (libc_uses_openat_for_open p) e.value)
    else none)

/-- `sb_openat`: openat rules pinned to `AT_FDCWD` and the fixed flag set. -/
def sb_openat (p : Platform) (cfg : List (SmpParamG String)) : List Rule :=
  cfg.filterMap (fun e =>
    if e.prot && e.syscall == SysId.real "openat" then
      some ⟨"openat",
        [⟨0, .eq, .num (fdcwdDatum p)⟩,
         ⟨1, .eq, .str e.value⟩,
         ⟨2, .eq, .num (O_RDONLY ||| O_NONBLOCK ||| O_LARGEFILE |||
                        O_DIRECTORY ||| O_CLOEXEC)⟩]⟩
    else none)

/-- `sb_opendir`: `allow_file_open` per phony-opendir entry, using
`libc_uses_openat_for_opendir()`. -/
def sb_opendir (p : Platform) (cfg : List (SmpParamG String)) : List Rule :=
  cfg.filterMap (fun e =>
    if e.prot && e.syscall == SysId.phonyOpendir then
      some (allow_file_open p (libc_uses_openat_for_opendir p) e.value)
    else none)

/-- `sb_rename`: both path arguments are pinned.  A null `value2` pointer
would be passed as the null datum, modelled as `.num 0`. -/
def sb_rename (p : Platform) (cfg : List (SmpParamG String)) : List Rule :=
  cfg.filterMap (fun e =>
    if e.prot && e.syscall == SysId.real "rename" then
      some ⟨"rename",
        [⟨0, .eq, .str e.value⟩,
         ⟨1, .eq, match e.value2 with
                  | some v2 => .str v2
                  | none => .num 0⟩]⟩
    else none)

def sb_fcntl64 (p : Platform) : List Rule :=
  [⟨"fcntl64", [⟨1, .eq, .num F_GETFL⟩]⟩,
   ⟨"fcntl64", [⟨1, .eq, .num F_SETFL⟩,
                ⟨2, .eq, .num (O_RDWR ||| O_NONBLOCK)⟩]⟩,
   ⟨"fcntl64", [⟨1, .eq, .num F_GETFD⟩]⟩,
   ⟨"fcntl64", [⟨1, .eq, .num F_SETFD⟩, ⟨2, .eq, .num FD_CLOEXEC⟩]⟩]

def sb_epoll_ctl (p : Platform) : List Rule :=
  [⟨"epoll_ctl", [⟨1, .eq, .num EPOLL_CTL_ADD⟩]⟩,
   ⟨"epoll_ctl", [⟨1, .eq, .num EPOLL_CTL_MOD⟩]⟩,
   ⟨"epoll_ctl", [⟨1, .eq, .num EPOLL_CTL_DEL⟩]⟩]

def sb_prctl (p : Platform) : List Rule :=
  [⟨"prctl", [⟨0, .eq, .num PR_SET_DUMPABLE⟩]⟩]

/-- `sb_mprotect`: only read-only and no-access protection requests. -/
def sb_mprotect (p : Platform) : List Rule :=
  [⟨"mprotect", [⟨2, .eq, .num PROT_READ⟩]⟩,
   ⟨"mprotect", [⟨2, .eq, .num PROT_NONE⟩]⟩]

def sb_flock (p : Platform) : List Rule :=
  [⟨"flock", [⟨1, .eq, .num (LOCK_EX ||| LOCK_NB)⟩]⟩,
   ⟨"flock", [⟨1, .eq, .num LOCK_UN⟩]⟩]

def sb_futex (p : Platform) : List Rule :=
  [⟨"futex", [⟨1, .eq, .num FUTEX_WAIT_BITSET_PRIVATE_CLOCK_REALTIME⟩]⟩,
   ⟨"futex", [⟨1, .eq, .num FUTEX_WAKE_PRIVATE⟩]⟩,
   ⟨"futex", [⟨1, .eq, .num FUTEX_WAIT_PRIVATE⟩]⟩]

def sb_mremap (p : Platform) : List Rule :=
  [⟨"mremap", [⟨3, .eq, .num MREMAP_MAYMOVE⟩]⟩]

/-- `sb_stat64` (compiled only with `__NR_stat64`): emits a stat64 rule for
every protected entry registered for *open or stat64*. -/
def sb_stat64 (p : Platform) (cfg : List (SmpParamG String)) : List Rule :=
  cfg.filterMap (fun e =>
    if e.prot && (e.syscall == SysId.real "open" ||
                  e.syscall == SysId.real "stat64") then
      some ⟨"stat64", [⟨0, .eq, .str e.value⟩]⟩
    else none)

def sb_socket (p : Platform) : List Rule :=
  condList
    [(p.isI386, ⟨"socket", []⟩),
     (true, ⟨"socket",
       [⟨0, .eq, .num PF_FILE⟩,
        ⟨1, .maskedEq (datumComplement (SOCK_CLOEXEC ||| SOCK_NONBLOCK)),
         .num SOCK_STREAM⟩]⟩),
     (true, ⟨"socket",
       [⟨0, .eq, .num PF_INET6⟩,
        ⟨1, .maskedEq (datumComplement (SOCK_CLOEXEC ||| SOCK_NONBLOCK)),
         .num SOCK_STREAM⟩,
        ⟨2, .eq, .num IPPROTO_TCP⟩]⟩),
     (true, ⟨"socket",
       [⟨0, .eq, .num PF_INET6⟩,
        ⟨1, .maskedEq (datumComplement (SOCK_CLOEXEC ||| SOCK_NONBLOCK)),
         .num SOCK_DGRAM⟩,
        ⟨2, .eq, .num IPPROTO_IP⟩]⟩),
     (true, ⟨"socket",
       [⟨0, .eq, .num PF_INET6⟩,
        ⟨1, .maskedEq (datumComplement (SOCK_CLOEXEC ||| SOCK_NONBLOCK)),
         .num SOCK_DGRAM⟩,
        ⟨2, .eq, .num IPPROTO_UDP⟩]⟩),
     (true, ⟨"socket",
       [⟨0, .eq, .num PF_INET⟩,
        ⟨1, .maskedEq (datumComplement (SOCK_CLOEXEC ||| SOCK_NONBLOCK)),
         .num SOCK_STREAM⟩,
        ⟨2, .eq, .num IPPROTO_TCP⟩]⟩),
     (true, ⟨"socket",
       [⟨0, .eq, .num PF_INET⟩,
        ⟨1, .maskedEq (datumComplement (SOCK_CLOEXEC ||| SOCK_NONBLOCK)),
         .num SOCK_DGRAM⟩,
        ⟨2, .eq, .num IPPROTO_IP⟩]⟩),
     (true, ⟨"socket",
       [⟨0, .eq, .num PF_INET⟩,
        ⟨1, .maskedEq (datumComplement (SOCK_CLOEXEC ||| SOCK_NONBLOCK)),
         .num SOCK_DGRAM⟩,
        ⟨2, .eq, .num IPPROTO_UDP⟩]⟩),
     (p.enableNss, ⟨"socket",
       [⟨0, .eq, .num PF_INET⟩,
        ⟨1, .eq, .num SOCK_STREAM⟩,
        ⟨2, .eq, .num IPPROTO_IP⟩]⟩),
     (true, ⟨"socket",
       [⟨0, .eq, .num PF_UNIX⟩,
        ⟨1, .maskedEq (datumComplement (SOCK_CLOEXEC ||| SOCK_NONBLOCK)),
         .num SOCK_STREAM⟩,
        ⟨2, .eq, .num 0⟩]⟩),
     (true, ⟨"socket",
       [⟨0, .eq, .num PF_UNIX⟩,
        ⟨1, .maskedEq (datumComplement (SOCK_CLOEXEC ||| SOCK_NONBLOCK)),
         .num SOCK_DGRAM⟩,
        ⟨2, .eq, .num 0⟩]⟩),
     (true, ⟨"socket",
       [⟨0, .eq, .num PF_NETLINK⟩,
        ⟨1, .maskedEq (datumComplement SOCK_CLOEXEC), .num SOCK_RAW⟩,
        ⟨2, .eq, .num 0⟩]⟩)]

def sb_setsockopt (p : Platform) : List Rule :=
  condList
    [(p.isI386, ⟨"setsockopt", []⟩),
     (true, ⟨"setsockopt",
       [⟨1, .eq, .num SOL_SOCKET⟩, ⟨2, .eq, .num SO_REUSEADDR⟩]⟩),
     (true, ⟨"setsockopt",
       [⟨1, .eq, .num SOL_SOCKET⟩, ⟨2, .eq, .num SO_SNDBUF⟩]⟩),
     (true, ⟨"setsockopt",
       [⟨1, .eq, .num SOL_SOCKET⟩, ⟨2, .eq, .num SO_RCVBUF⟩]⟩),
     (p.hasSystemd, ⟨"setsockopt",
       [⟨1, .eq, .num SOL_SOCKET⟩, ⟨2, .eq, .num SO_SNDBUFFORCE⟩]⟩),
     (p.hasIpTransparent, ⟨"setsockopt",
       [⟨1, .eq, .num SOL_IP⟩, ⟨2, .eq, .num IP_TRANSPARENT⟩]⟩),
     (p.hasIpv6Only, ⟨"setsockopt",
       [⟨1, .eq, .num IPPROTO_IPV6⟩, ⟨2, .eq, .num IPV6_V6ONLY⟩]⟩)]

def sb_getsockopt (p : Platform) : List Rule :=
  condList
    [(p.isI386, ⟨"getsockopt", []⟩),
     (true, ⟨"getsockopt",
       [⟨1, .eq, .num SOL_SOCKET⟩, ⟨2, .eq, .num SO_ERROR⟩]⟩),
     (true, ⟨"getsockopt",
       [⟨1, .eq, .num SOL_SOCKET⟩, ⟨2, .eq, .num SO_ACCEPTCONN⟩]⟩),
     (p.hasSystemd, ⟨"getsockopt",
       [⟨1, .eq, .num SOL_SOCKET⟩, ⟨2, .eq, .num SO_SNDBUF⟩]⟩),
     (p.hasNetfilterIpv4, ⟨"getsockopt",
       [⟨1, .eq, .num SOL_IP⟩, ⟨2, .eq, .num SO_ORIGINAL_DST⟩]⟩),
     (p.hasNetfilterIpv6, ⟨"getsockopt",
       [⟨1, .eq, .num SOL_IPV6⟩, ⟨2, .eq, .num IP6T_SO_ORIGINAL_DST⟩]⟩),
     (p.hasKistSupport, ⟨"getsockopt",
       [⟨1, .eq, .num SOL_TCP⟩, ⟨2, .eq, .num TCP_INFO⟩]⟩)]

def sb_socketpair (p : Platform) : List Rule :=
  condList
    [(p.isI386, ⟨"socketpair", []⟩),
     (true, ⟨"socketpair",
       [⟨0, .eq, .num PF_FILE⟩,
        ⟨1, .eq, .num (SOCK_STREAM ||| SOCK_CLOEXEC)⟩]⟩)]

def sb_ioctl (p : Platform) : List Rule :=
  [⟨"ioctl", [⟨1, .eq, .num SIOCOUTQNSD⟩]⟩]

def sb_kill (p : Platform) : List Rule :=
  condList [(p.hasKill, ⟨"kill", [⟨1, .eq, .num 0⟩]⟩)]

/-- The `filter_func` table, entries guarded exactly as in the source, each
paired with the rules it emits for the given registry. -/
def filter_func (p : Platform) (cfg : List (SmpParamG String)) :
    List (Bool × List Rule) :=
  [(true, sb_rt_sigaction p),
   (true, sb_rt_sigprocmask p),
   (true, sb_time p),
   (true, sb_accept4 p),
   (p.hasMmap2, sb_mmap2 p),
   (true, sb_chown p cfg),
   (true, sb_chmod p cfg),
   (true, sb_open p cfg),
   (true, sb_openat p cfg),
   (true, sb_opendir p cfg),
   (true, sb_rename p cfg),
   (p.hasFcntl64, sb_fcntl64 p),
   (true, sb_epoll_ctl p),
   (true, sb_prctl p),
   (true, sb_mprotect p),
   (true, sb_flock p),
   (true, sb_futex p),
   (true, sb_mremap p),
   (p.hasStat64, sb_stat64 p cfg),
   (true, sb_socket p),
   (true, sb_setsockopt p),
   (true, sb_getsockopt p),
   (true, sb_socketpair p),
   (p.hasKistSupport, sb_ioctl p),
   (true, sb_kill p)]

/-- `add_param_filter`: all the parameterized installers' rules, in table
order. -/
def add_param_filter (p : Platform) (cfg : List (SmpParamG String)) :
    List Rule :=
  (condList (filter_func p cfg)).flatten

/-! ### Rules emitted by `prot_strings` for the protected region

`base` is the address `mmap` returned; the mapping is
`[base, base + MALLOC_MP_LIM + size)` where `size` is the interned-strings
byte count and `MALLOC_MP_LIM` the canary. -/

/-- The two `SCMP_ACT_KILL` rules: no mremap/munmap of the base address. -/
def prot_rules_kill (base : Nat) : List Rule :=
  [⟨"mremap", [⟨0, .eq, .num base⟩]⟩,
   ⟨"munmap", [⟨0, .eq, .num base⟩]⟩]

/-- The two mprotect `PROT_READ|PROT_WRITE` allow rules:
addresses strictly below the base with length bounded by the canary, or
addresses strictly above the end of the mapping with the same bound. -/
def prot_rules_mprotect (base size : Nat) : List Rule :=
  [⟨"mprotect",
    [⟨0, .lt, .num base⟩,
     ⟨1, .le, .num MALLOC_MP_LIM⟩,
     ⟨2, .eq, .num (PROT_READ ||| PROT_WRITE)⟩]⟩,
   ⟨"mprotect",
    [⟨0, .gt, .num (base + size + MALLOC_MP_LIM)⟩,
     ⟨1, .le, .num MALLOC_MP_LIM⟩,
     ⟨2, .eq, .num (PROT_READ ||| PROT_WRITE)⟩]⟩]

/-- Total arena bytes `prot_strings` reserves for strings: the sum of
`strlen+1` over every string argument across all entries. -/
def pr_mem_size (cfg : List (SmpParamG String)) : Nat :=
  cfg.foldr
    (fun e acc =>
      (e.value.length + 1) +
      (match e.value2 with
       | some s => s.length + 1
       | none => 0) + acc) 0

/-- The complete filter a successful `install_syscall_filter` loads, given
the protected registry and the arena base address: the `prot_strings` rules,
then the parameterized rules, then the parameterless rules, over the default
deny action. -/
def install_filter (p : Platform) (cfg : List (SmpParamG String))
    (base : Nat) : SeccompFilter :=
  ⟨prot_rules_kill base,
   prot_rules_mprotect base (pr_mem_size cfg) ++
     add_param_filter p cfg ++ add_noparam_filter p⟩

/-! ### String protection arena (`prot_strings` / `prot_strings_helper`)

Addresses are offsets from the `mmap` base; the first string lands at offset
`MALLOC_MP_LIM` (just past the canary). -/

/-- A string that has been placed in (or looked up against) the arena: its
address and its byte contents. -/
structure PStr where
  addr : Nat
  bytes : String
  deriving DecidableEq, Repr

/-- State threaded through the interning pass: the `strmap_t locations`
(content ↦ canonical address, most recent binding first), `pr_mem_next`, and
`pr_mem_left`. -/
structure ProtSt where
  locations : List (String × Nat)
  next : Nat
  left : Nat
  deriving DecidableEq, Repr

/-- `strmap_get`: first binding for the key. -/
def strmap_get (m : List (String × Nat)) (k : String) : Option Nat :=
  match m with
  | [] => none
  | (k', v) :: rest => if k' == k then some v else strmap_get rest k

/-- `prot_strings_helper` on a non-null string argument: reuse the interned
copy if the map has one; otherwise, if there is room, copy the string
(`strlen+1` bytes) to `pr_mem_next`, record it, and advance; otherwise fail
(the C returns `-1` after logging "insufficient protected memory"). -/
def prot_strings_helper (st : ProtSt) (s : String) : Option (ProtSt × Nat) :=
  match strmap_get st.locations s with
  | some loc => some (st, loc)
  | none =>
    if s.length + 1 ≤ st.left then
      some (⟨(s, st.next) :: st.locations,
             st.next + (s.length + 1),
             st.left - (s.length + 1)⟩,
            st.next)
    else none

/-- Process one registry entry: intern `value`, then `value2` when present
(the C helper returns immediately on a null `*value_p`), and set `prot`. -/
def protEntry (st : ProtSt) (e : SmpParamG String) :
    Option (SmpParamG PStr × ProtSt) :=
  match prot_strings_helper st e.value with
  | none => none
  | some (st1, a1) =>
    match e.value2 with
    | none => some (⟨e.syscall, ⟨a1, e.value⟩, none, true⟩, st1)
    | some s2 =>
      match prot_strings_helper st1 s2 with
      | none => none
      | some (st2, a2) =>
        some (⟨e.syscall, ⟨a1, e.value⟩, some ⟨a2, s2⟩, true⟩, st2)

/-- The interning loop of `prot_strings` over the whole registry. -/
def protPass (st : ProtSt) :
    List (SmpParamG String) → Option (List (SmpParamG PStr) × ProtSt)
  | [] => some ([], st)
  | e :: rest =>
    match protEntry st e with
    | none => none
    | some (pe, st1) =>
      match protPass st1 rest with
      | none => none
      | some (pes, st2) => some (pe :: pes, st2)

/-- The string-interning core of `prot_strings`: size the arena as
`pr_mem_size`, start placing strings at offset `MALLOC_MP_LIM`, and run the
pass.  (`mmap`/`mprotect`/rule-add failures are separate failure modes,
modelled by `InstallEnv`.) -/
def prot_strings (cfg : List (SmpParamG String)) :
    Option (List (SmpParamG PStr) × ProtSt) :=
  protPass ⟨[], MALLOC_MP_LIM, pr_mem_size cfg⟩ cfg

/-! ### Interned-string lookup -/

/-- `sandbox_get_interned_string`: walk `filter_dynamic`; for each protected
entry compare contents against `value`, then against a present `value2`,
returning the stored (canonical) string. -/
def sandbox_get_interned_string (fd : List (SmpParamG PStr)) (s : PStr) :
    Option PStr :=
  match fd with
  | [] => none
  | e :: rest =>
    if e.prot then
      if e.value.bytes == s.bytes then some e.value
      else
        match e.value2 with
        | some v2 =>
          if v2.bytes == s.bytes then some v2
          else sandbox_get_interned_string rest s
        | none => sandbox_get_interned_string rest s
    else sandbox_get_interned_string rest s

/-- `sandbox_intern_string` on a non-null string: the interned copy when
found, otherwise the argument unchanged (the warning log does not affect the
result). -/
def sandbox_intern_string (fd : List (SmpParamG PStr)) (s : PStr) : PStr :=
  (sandbox_get_interned_string fd s).getD s

/-- `sandbox_interned_string_is_missing` on a non-null string. -/
def sandbox_interned_string_is_missing (fd : List (SmpParamG PStr))
    (sactive : Nat) (s : PStr) : Bool :=
  decide (sactive ≠ 0) && (sandbox_get_interned_string fd s).isNone

/-- Does some protected entry hold a string equal to `s` (the condition under
which the registry has an interned copy of `s`)? -/
def hasInterned (fd : List (SmpParamG PStr)) (s : String) : Bool :=
  fd.any (fun e =>
    e.prot &&
      (e.value.bytes == s ||
       (match e.value2 with
        | some v2 => v2.bytes == s
        | none => false)))

/-! ### Lifecycle (`install_syscall_filter`, `sandbox_init`)

The process-global state and the outcomes of the external calls
(libseccomp and the kernel) are explicit. -/

/-- Process-global sandbox state: the `sandbox_active` flag, the
`filter_dynamic` registry, and how many filters have been loaded into the
kernel (each successful `seccomp_load` adds one). -/
structure GlobalSt where
  sandbox_active : Nat
  filter_dynamic : List (SmpParamG String)
  loadedFilters : Nat
  deriving DecidableEq, Repr

/-- Outcomes of the external steps of `install_syscall_filter`:
`seccomp_init` (null context or not) and the result codes of
`prot_strings`, `add_param_filter`, `add_noparam_filter`, `seccomp_load`
(0 is success). -/
structure InstallEnv where
  seccompInitOk : Bool
  protStringsRc : Int
  addParamRc : Int
  addNoparamRc : Int
  seccompLoadRc : Int
  deriving DecidableEq, Repr

/-- `return (rc < 0 ? -rc : rc)`. -/
def normRc (rc : Int) : Int := if rc < 0 then -rc else rc

/-- `install_syscall_filter`: stop at the first failing step, returning the
(normalised) error and leaving the global state untouched; only when every
step succeeded mark the sandbox active (one more filter is then enforced by
the kernel). -/
def install_syscall_filter (env : InstallEnv) (g : GlobalSt) :
    Int × GlobalSt :=
  if env.seccompInitOk = false then (1, g)
  else if env.protStringsRc ≠ 0 then (normRc env.protStringsRc, g)
  else if env.addParamRc ≠ 0 then (normRc env.addParamRc, g)
  else if env.addNoparamRc ≠ 0 then (normRc env.addNoparamRc, g)
  else if env.seccompLoadRc ≠ 0 then (normRc env.seccompLoadRc, g)
  else (0, { g with sandbox_active := 1,
                    loadedFilters := g.loadedFilters + 1 })

/-- `register_cfg`: append the configuration to `filter_dynamic`
(both branches of the C amount to appending); always returns 0. -/
def register_cfg (cfg : List (SmpParamG String)) (g : GlobalSt) :
    Int × GlobalSt :=
  (0, { g with filter_dynamic := g.filter_dynamic ++ cfg })

/-- Outcomes of the external steps of `initialise_libseccomp_sandbox`:
`sigaction` and `sigprocmask` from `install_sigsys_debugging`, then the
install steps. -/
structure InitEnv where
  sigactionOk : Bool
  sigprocmaskOk : Bool
  inst : InstallEnv
  deriving DecidableEq, Repr

/-- `install_sigsys_debugging`. -/
def install_sigsys_debugging (env : InitEnv) : Int :=
  if env.sigactionOk = false then -1
  else if env.sigprocmaskOk = false then -2
  else 0

/-- `initialise_libseccomp_sandbox`: no guard on `sandbox_active` — it
installs the SIGSYS handler, runs the whole filter installation, and appends
the (now protected) cfg to the process registry.  By the time `register_cfg`
runs, `prot_strings` has set every entry's protection flag, which at content
level is `protectAll`. -/
def initialise_libseccomp_sandbox (env : InitEnv)
    (cfg : List (SmpParamG String)) (g : GlobalSt) : Int × GlobalSt :=
  if install_sigsys_debugging env ≠ 0 then (-1, g)
  else
    let r := install_syscall_filter env.inst g
    if r.1 ≠ 0 then (-2, r.2)
    else register_cfg (protectAll cfg) r.2

/-- `sandbox_init` with `USE_LIBSECCOMP`. -/
def sandbox_init (env : InitEnv) (cfg : List (SmpParamG String))
    (g : GlobalSt) : Int × GlobalSt :=
  initialise_libseccomp_sandbox env cfg g

/-- `sandbox_is_active`. -/
def sandbox_is_active (g : GlobalSt) : Bool :=
  g.sandbox_active ≠ 0

/-- Two half-open ranges `[a1, a2)` and `[b1, b2)` intersect. -/
def intersectsRange (a1 a2 b1 b2 : Nat) : Prop :=
  a1 < b2 ∧ b1 < a2

/-! ### Helper lemmas -/

theorem mem_of_mem_condList {α : Type} {l : List (Bool × α)} {a : α}
    (h : a ∈ condList l) : a ∈ l.map Prod.snd := by
  simp only [condList, List.mem_filterMap] at h
  obtain ⟨⟨b, x⟩, hx, he⟩ := h
  by_cases hb : b
  · simp only [hb, if_true, Option.some.injEq] at he
    subst he
    exact List.mem_map_of_mem _ hx
  · simp [hb] at he

theorem mem_condList_of_mem {α : Type} {l : List (Bool × α)} {a : α}
    (h : (true, a) ∈ l) : a ∈ condList l := by
  simp only [condList, List.mem_filterMap]
  exact ⟨(true, a), h, rfl⟩

theorem ruleMatches_sys {r : Rule} {req : Request}
    (h : ruleMatches r req = true) : r.sys = req.sys := by
  simp only [ruleMatches, Bool.and_eq_true, beq_iff_eq] at h
  exact h.1

theorem normRc_ne_zero {rc : Int} (h : rc ≠ 0) : normRc rc ≠ 0 := by
  unfold normRc
  split <;> omega

/-! ### C8: the opendir capability probe -/

theorem is_libc_at_least_two (m minor : Int) :
    is_libc_at_least { linux_x86_64 with libcMinor := m } 2 minor =
      decide (minor ≤ m) := by
  have h2 : ¬((2 : Int) > 2) := by omega
  simp only [is_libc_at_least, linux_x86_64, h2, if_false, if_true]
  by_cases hm : minor ≤ m <;> simp [hm]

/-- C8: `libc_uses_openat_for_opendir` has the documented non-monotonic
shape.  With a parsed libc version `2.m` it returns true exactly when
`m ≥ 27` or `15 ≤ m < 22` — so in particular it is true at 2.16, false again
at 2.23, and true again at 2.27. -/
theorem libc_uses_openat_for_opendir_shape :
    (∀ m : Int,
      libc_uses_openat_for_opendir { linux_x86_64 with libcMinor := m } =
        decide (27 ≤ m ∨ (15 ≤ m ∧ m < 22))) ∧
    libc_uses_openat_for_opendir { linux_x86_64 with libcMinor := 16 } = true ∧
    libc_uses_openat_for_opendir { linux_x86_64 with libcMinor := 23 } = false ∧
    libc_uses_openat_for_opendir { linux_x86_64 with libcMinor := 27 } = true := by
  refine ⟨?_, by decide, by decide, by decide⟩
  intro m
  unfold libc_uses_openat_for_opendir
  rw [is_libc_at_least_two, is_libc_at_least_two, is_libc_at_least_two]
  by_cases h27 : (27 : Int) ≤ m <;>
    by_cases h15 : (15 : Int) ≤ m <;>
      by_cases h22 : (22 : Int) ≤ m <;>
        simp [h27, h15, h22, decide_eq_true_eq, decide_eq_false_iff_not] <;>
          omega

/-! ### C3: installation fails fast and never partially activates -/

/-- C3: if any step of `install_syscall_filter` fails (seccomp context
initialization, string protection, parameterized rules, parameterless rules,
or the kernel load), the function returns a nonzero code and the global state
— in particular `sandbox_active` — is unchanged; and `sandbox_active` can
only end up `1` when every step succeeded. -/
theorem install_syscall_filter_failfast :
    ∀ (env : InstallEnv) (g : GlobalSt), g.sandbox_active = 0 →
      ((env.seccompInitOk = false ∨ env.protStringsRc ≠ 0 ∨
        env.addParamRc ≠ 0 ∨ env.addNoparamRc ≠ 0 ∨
        env.seccompLoadRc ≠ 0) →
        (install_syscall_filter env g).1 ≠ 0 ∧
        (install_syscall_filter env g).2 = g ∧
        (install_syscall_filter env g).2.sandbox_active = 0) ∧
      ((install_syscall_filter env g).2.sandbox_active = 1 →
        env.seccompInitOk = true ∧ env.protStringsRc = 0 ∧
        env.addParamRc = 0 ∧ env.addNoparamRc = 0 ∧
        env.seccompLoadRc = 0 ∧ (install_syscall_filter env g).1 = 0) := by
  intro env g hg
  unfold install_syscall_filter
  split_ifs with h1 h2 h3 h4 h5
  · exact ⟨fun _ => ⟨by omega, rfl, hg⟩, fun ha => absurd (hg ▸ ha) (by omega)⟩
  · exact ⟨fun _ => ⟨normRc_ne_zero h2, rfl, hg⟩,
      fun ha => absurd (hg ▸ ha) (by omega)⟩
  · exact ⟨fun _ => ⟨normRc_ne_zero h3, rfl, hg⟩,
      fun ha => absurd (hg ▸ ha) (by omega)⟩
  · exact ⟨fun _ => ⟨normRc_ne_zero h4, rfl, hg⟩,
      fun ha => absurd (hg ▸ ha) (by omega)⟩
  · exact ⟨fun _ => ⟨normRc_ne_zero h5, rfl, hg⟩,
      fun ha => absurd (hg ▸ ha) (by omega)⟩
  · refine ⟨fun hf => ?_, fun _ => ?_⟩
    · rcases hf with h | h | h | h | h
      · exact absurd h (by simp_all)
      all_goals simp_all
    · simp_all

/-- Witness for C3 at a concrete failing environment (null seccomp
context). -/
theorem install_syscall_filter_failfast_witness :
    (install_syscall_filter ⟨false, 0, 0, 0, 0⟩ ⟨0, [], 0⟩).1 ≠ 0 ∧
    (install_syscall_filter ⟨false, 0, 0, 0, 0⟩ ⟨0, [], 0⟩).2.sandbox_active
      = 0 := by
  have h := install_syscall_filter_failfast ⟨false, 0, 0, 0, 0⟩ ⟨0, [], 0⟩ rfl
  have h2 := h.1 (Or.inl rfl)
  exact ⟨h2.1, h2.2.2⟩

/-! ### C4: registration after activation -/

/-- C4 counterexample: with `sandbox_active = 1`,
`sandbox_cfg_allow_open_filename` still *succeeds*: it returns 0 and
prepends the entry.  The source never consults `sandbox_active` in any of
the registration functions, so no rejection happens. -/
theorem sandbox_cfg_allow_open_active_succeeds :
    sandbox_cfg_allow_open_filename 1 [] "/etc/hosts" =
      (0, [⟨.real "open", "/etc/hosts", none, false⟩]) := rfl

/-- C4 amended: the seven registration functions ignore `sandbox_active`
entirely — whatever its value, each returns success (0) and prepends its
entry to the caller's list (the already-loaded kernel filter is a separate,
immutable object and is unaffected). -/
theorem sandbox_cfg_allow_ignores_active :
    ∀ (sactive : Nat) (p : Platform) (cfg : List (SmpParamG String))
      (f1 f2 : String),
      sandbox_cfg_allow_open_filename sactive cfg f1 =
        (0, new_element (.real "open") f1 :: cfg) ∧
      sandbox_cfg_allow_stat_filename sactive p cfg f1 =
        (0, new_element (SCMP_stat p) f1 :: cfg) ∧
      sandbox_cfg_allow_chmod_filename sactive cfg f1 =
        (0, new_element (.real "chmod") f1 :: cfg) ∧
      sandbox_cfg_allow_chown_filename sactive cfg f1 =
        (0, new_element (.real "chown") f1 :: cfg) ∧
      sandbox_cfg_allow_rename sactive cfg f1 f2 =
        (0, new_element2 (.real "rename") f1 (some f2) :: cfg) ∧
      sandbox_cfg_allow_openat_filename sactive cfg f1 =
        (0, new_element (.real "openat") f1 :: cfg) ∧
      sandbox_cfg_allow_opendir_dirname sactive cfg f1 =
        (0, new_element .phonyOpendir f1 :: cfg) :=
  fun _ _ _ _ _ => ⟨rfl, rfl, rfl, rfl, rfl, rfl, rfl⟩

/-! ### C5: a second `sandbox_init` -/

/-- An environment in which every external step succeeds. -/
def allOkEnv : InitEnv := ⟨true, true, ⟨true, 0, 0, 0, 0⟩⟩

/-- C5 counterexample: after a first successful installation, a second
`sandbox_init` call is *not* rejected and does *not* no-op: it succeeds
(returns 0), performs a full second installation — a second filter is loaded
into the kernel (`loadedFilters = 2`) — and appends the new configuration to
the process registry. -/
theorem sandbox_init_second_call_installs_again :
    (sandbox_init allOkEnv [new_element (.real "open") "/b"]
      (sandbox_init allOkEnv [new_element (.real "open") "/a"]
        ⟨0, [], 0⟩).2).1 = 0 ∧
    (sandbox_init allOkEnv [new_element (.real "open") "/b"]
      (sandbox_init allOkEnv [new_element (.real "open") "/a"]
        ⟨0, [], 0⟩).2).2.loadedFilters = 2 ∧
    (sandbox_init allOkEnv [new_element (.real "open") "/b"]
      (sandbox_init allOkEnv [new_element (.real "open") "/a"]
        ⟨0, [], 0⟩).2).2.filter_dynamic ≠
    (sandbox_init allOkEnv [new_element (.real "open") "/a"]
      ⟨0, [], 0⟩).2.filter_dynamic := by
  refine ⟨rfl, rfl, ?_⟩
  decide

/-- C5 amended: `sandbox_init` has no guard on `sandbox_active`.  From an
already-active state the flag simply stays 1 (the flag is only ever written
with 1, so there is at most one 0 → 1 transition per process and the
recorded state is not corrupted), but a second call with succeeding external
steps performs a full second installation: it returns 0, loads one more
kernel filter, and appends the newly protected cfg to `filter_dynamic`. -/
theorem sandbox_init_no_active_guard :
    ∀ (env : InitEnv) (cfg : List (SmpParamG String)) (g : GlobalSt),
      g.sandbox_active = 1 →
      (sandbox_init env cfg g).2.sandbox_active = 1 ∧
      (env.sigactionOk = true → env.sigprocmaskOk = true →
        env.inst.seccompInitOk = true → env.inst.protStringsRc = 0 →
        env.inst.addParamRc = 0 → env.inst.addNoparamRc = 0 →
        env.inst.seccompLoadRc = 0 →
        sandbox_init env cfg g =
          (0, ⟨1, g.filter_dynamic ++ protectAll cfg,
               g.loadedFilters + 1⟩)) := by
  intro env cfg g hg
  have hkeep : ∀ (e : InstallEnv),
      (install_syscall_filter e g).2.sandbox_active = 1 := by
    intro e
    unfold install_syscall_filter
    split_ifs <;> simp_all
  constructor
  · unfold sandbox_init initialise_libseccomp_sandbox register_cfg
    by_cases h1 : install_sigsys_debugging env ≠ 0
    · simp [h1, hg]
    · by_cases h2 : (install_syscall_filter env.inst g).1 ≠ 0
      · simp [h1, h2, hkeep]
      · simp [h1, h2, hkeep]
  · intro ha hb hc hd he hf hh
    simp_all [sandbox_init, initialise_libseccomp_sandbox,
      install_sigsys_debugging, install_syscall_filter, register_cfg]

/-- Witness for C5's amended statement at a concrete active state. -/
theorem sandbox_init_no_active_guard_witness :
    (sandbox_init allOkEnv [] ⟨1, [], 1⟩).2.sandbox_active = 1 ∧
    sandbox_init allOkEnv [] ⟨1, [], 1⟩ = (0, ⟨1, [], 2⟩) := by
  have h := sandbox_init_no_active_guard allOkEnv [] ⟨1, [], 1⟩ rfl
  exact ⟨h.1, h.2 rfl rfl rfl rfl rfl rfl rfl⟩

/-! ### C6: interned-string lookup -/

theorem interned_lookup_found :
    ∀ (fd : List (SmpParamG PStr)) (s : PStr),
      hasInterned fd s.bytes = true →
      ∃ t, sandbox_get_interned_string fd s = some t ∧ t.bytes = s.bytes ∧
        ∃ e ∈ fd, e.prot = true ∧ (t = e.value ∨ e.value2 = some t) := by
  intro fd
  induction fd with
  | nil => intro s h; simp [hasInterned] at h
  | cons e rest ih =>
    intro s h
    by_cases hp : e.prot
    · by_cases hv : e.value.bytes = s.bytes
      · refine ⟨e.value, ?_, hv, e, by simp, hp, Or.inl rfl⟩
        simp [sandbox_get_interned_string, hp, hv]
      · cases hv2 : e.value2 with
        | some v2 =>
          by_cases hb : v2.bytes = s.bytes
          · refine ⟨v2, ?_, hb, e, by simp, hp, Or.inr hv2⟩
            simp [sandbox_get_interned_string, hp, hv, hv2, hb]
          · have hrest : hasInterned rest s.bytes = true := by
              simp only [hasInterned, List.any_cons, Bool.or_eq_true] at h
              rcases h with h | h
              · simp [hv2, hv, hb] at h
              · exact h
            obtain ⟨t, ht, hbt, e', he', hp', hor⟩ := ih s hrest
            refine ⟨t, ?_, hbt, e', List.mem_cons_of_mem _ he', hp', hor⟩
            simp [sandbox_get_interned_string, hp, hv, hv2, hb, ht]
        | none =>
          have hrest : hasInterned rest s.bytes = true := by
            simp only [hasInterned, List.any_cons, Bool.or_eq_true] at h
            rcases h with h | h
            · simp [hv2, hv] at h
            · exact h
          obtain ⟨t, ht, hbt, e', he', hp', hor⟩ := ih s hrest
          refine ⟨t, ?_, hbt, e', List.mem_cons_of_mem _ he', hp', hor⟩
          simp [sandbox_get_interned_string, hp, hv, hv2, ht]
    · have hrest : hasInterned rest s.bytes = true := by
        simp only [hasInterned, List.any_cons, Bool.or_eq_true] at h
        rcases h with h | h
        · simp [hp] at h
        · exact h
      obtain ⟨t, ht, hbt, e', he', hp', hor⟩ := ih s hrest
      refine ⟨t, ?_, hbt, e', List.mem_cons_of_mem _ he', hp', hor⟩
      simp [sandbox_get_interned_string, hp, ht]

theorem interned_lookup_not_found :
    ∀ (fd : List (SmpParamG PStr)) (s : PStr),
      hasInterned fd s.bytes = false →
      sandbox_get_interned_string fd s = none := by
  intro fd
  induction fd with
  | nil => intro s h; rfl
  | cons e rest ih =>
    intro s h
    simp only [hasInterned, List.any_cons, Bool.or_eq_false_iff] at h
    obtain ⟨he, hrest⟩ := h
    by_cases hp : e.prot
    · by_cases hv : e.value.bytes = s.bytes
      · simp [hp, hv] at he
      · cases hv2 : e.value2 with
        | some v2 =>
          by_cases hb : v2.bytes = s.bytes
          · simp [hp, hv2, hb] at he
          · simp [sandbox_get_interned_string, hp, hv, hv2, hb]
            exact ih s hrest
        | none =>
          simp [sandbox_get_interned_string, hp, hv, hv2]
          exact ih s hrest
    · simp [sandbox_get_interned_string, hp]
      exact ih s hrest

/-- C6: for every (non-null) string `s`: when some protected registry entry
holds a string equal to `s`, `sandbox_intern_string` returns that canonical
interned copy (equal contents, a string field of a protected entry); when no
interned copy exists, it returns `s` itself unchanged — in particular while
the sandbox is inactive the registry is still empty and `s` is returned; and
`sandbox_interned_string_is_missing s` holds exactly when the sandbox is
active and no interned copy of `s` exists. -/
theorem sandbox_intern_string_spec :
    ∀ (fd : List (SmpParamG PStr)) (sactive : Nat) (s : PStr),
      (hasInterned fd s.bytes = true →
        ∃ t, sandbox_intern_string fd s = t ∧ t.bytes = s.bytes ∧
          sandbox_get_interned_string fd s = some t ∧
          ∃ e ∈ fd, e.prot = true ∧ (t = e.value ∨ e.value2 = some t)) ∧
      (hasInterned fd s.bytes = false → sandbox_intern_string fd s = s) ∧
      (sandbox_interned_string_is_missing fd sactive s = true ↔
        sactive ≠ 0 ∧ hasInterned fd s.bytes = false) ∧
      sandbox_intern_string [] s = s := by
  intro fd sactive s
  refine ⟨?_, ?_, ?_, rfl⟩
  · intro h
    obtain ⟨t, ht, hbt, hrest⟩ := interned_lookup_found fd s h
    exact ⟨t, by simp [sandbox_intern_string, ht], hbt, ht, hrest⟩
  · intro h
    simp [sandbox_intern_string, interned_lookup_not_found fd s h]
  · constructor
    · intro h
      simp only [sandbox_interned_string_is_missing, Bool.and_eq_true,
        decide_eq_true_eq, Option.isNone_iff_eq_none] at h
      refine ⟨h.1, ?_⟩
      by_cases hi : hasInterned fd s.bytes
      · obtain ⟨t, ht, _, _⟩ := interned_lookup_found fd s hi
        rw [h.2] at ht
        exact absurd ht (by simp)
      · simpa using hi
    · intro ⟨h1, h2⟩
      simp [sandbox_interned_string_is_missing, h1,
        interned_lookup_not_found fd s h2]

/-- Witness for C6 at a concrete registry and strings: a registered string
is returned via its canonical copy, an unregistered one comes back
unchanged and is reported missing. -/
theorem sandbox_intern_string_spec_witness :
    (∃ t, sandbox_intern_string
        [⟨.real "open", ⟨20971520, "/var/a"⟩, none, true⟩] ⟨7, "/var/a"⟩ = t ∧
      t.bytes = (⟨7, "/var/a"⟩ : PStr).bytes ∧
      sandbox_get_interned_string
        [⟨.real "open", ⟨20971520, "/var/a"⟩, none, true⟩] ⟨7, "/var/a"⟩ =
        some t ∧
      ∃ e ∈ [(⟨.real "open", ⟨20971520, "/var/a"⟩, none, true⟩ :
              SmpParamG PStr)],
        e.prot = true ∧ (t = e.value ∨ e.value2 = some t)) ∧
    sandbox_intern_string
      [⟨.real "open", ⟨20971520, "/var/a"⟩, none, true⟩] ⟨7, "/var/b"⟩ =
      ⟨7, "/var/b"⟩ ∧
    sandbox_interned_string_is_missing
      [⟨.real "open", ⟨20971520, "/var/a"⟩, none, true⟩] 1 ⟨7, "/var/b"⟩ =
      true := by
  have h1 := sandbox_intern_string_spec
    [⟨.real "open", ⟨20971520, "/var/a"⟩, none, true⟩] 1 ⟨7, "/var/a"⟩
  have h2 := sandbox_intern_string_spec
    [⟨.real "open", ⟨20971520, "/var/a"⟩, none, true⟩] 1 ⟨7, "/var/b"⟩
  exact ⟨h1.1 (by decide), h2.2.1 (by decide),
    h2.2.2.1.2 ⟨by decide, by decide⟩⟩

/-! ### C2: the mprotect allow rules and the protected region -/

/-- C2 counterexample: a read+write mprotect request whose range
`[addr, addr+len)` *does* intersect the protected region
`[base, base + MALLOC_MP_LIM + size)` (here `base = 2^32`, `size = 64`,
`addr = base - 1`, `len = MALLOC_MP_LIM`) is matched by the first of the two
mprotect allow rules emitted by `prot_strings`: the rules only fence off the
interned-string area, not the canary padding that the claim includes in the
region. -/
theorem mprotect_rw_overlap_canary_allowed :
    ((prot_rules_mprotect 4294967296 64).any
      (fun r => ruleMatches r
        ⟨"mprotect", [.num 4294967295, .num MALLOC_MP_LIM,
                      .num (PROT_READ ||| PROT_WRITE)]⟩)) = true ∧
    intersectsRange 4294967295 (4294967295 + MALLOC_MP_LIM)
      4294967296 (4294967296 + MALLOC_MP_LIM + 64) := by
  constructor
  · decide
  · constructor <;> decide

/-- C2 amended: the two mprotect allow rules emitted by `prot_strings` never
match a read+write request whose range intersects the *interned-string*
area `[base + MALLOC_MP_LIM, base + MALLOC_MP_LIM + size)`; a request
allowed by the below-base rule may overlap the canary padding (see the
counterexample), but write access never spans into the strings
themselves. -/
theorem mprotect_rw_never_reaches_strings :
    ∀ (base size addr len prt : Nat),
      (prot_rules_mprotect base size).any
        (fun r => ruleMatches r
          ⟨"mprotect", [.num addr, .num len, .num prt]⟩) = true →
      ¬ intersectsRange addr (addr + len)
          (base + MALLOC_MP_LIM) (base + MALLOC_MP_LIM + size) := by
  intro base size addr len prt h
  simp only [prot_rules_mprotect, List.any_cons, List.any_nil,
    Bool.or_eq_true, Bool.or_eq_false_iff, ruleMatches, List.all_cons,
    List.all_nil, condHolds, holdsCmp, Bool.and_eq_true] at h
  simp only [List.get?] at h
  rcases h with ⟨-, h1, h2, -⟩ | ⟨-, h1, h2, -⟩ | h
  · simp only [decide_eq_true_eq] at h1 h2
    intro ⟨ha, hb⟩
    unfold MALLOC_MP_LIM at *
    omega
  · simp only [decide_eq_true_eq] at h1 h2
    intro ⟨ha, hb⟩
    unfold MALLOC_MP_LIM at *
    omega
  · exact absurd h (by simp)

/-- Witness for C2's amended statement at a concrete allowed request. -/
theorem mprotect_rw_never_reaches_strings_witness :
    ¬ intersectsRange 0 (0 + 4096)
        (100 + MALLOC_MP_LIM) (100 + MALLOC_MP_LIM + 8) :=
  mprotect_rw_never_reaches_strings 100 8 0 4096
    (PROT_READ ||| PROT_WRITE) (by decide)

/-! ### Arena invariants (for C7 and C9) -/

/-- Total `strlen+1` bytes of the strings bound in an interning map. -/
def sumSizes (m : List (String × Nat)) : Nat :=
  m.foldr (fun kv acc => kv.1.length + 1 + acc) 0

/-- Bytes one entry contributes to `pr_mem_size`. -/
def entrySize (e : SmpParamG String) : Nat :=
  e.value.length + 1 +
    (match e.value2 with
     | some s => s.length + 1
     | none => 0)

theorem pr_mem_size_cons (e : SmpParamG String)
    (rest : List (SmpParamG String)) :
    pr_mem_size (e :: rest) = entrySize e + pr_mem_size rest := rfl

/-- Every binding of `m` survives into `m'`. -/
def submapL (m m' : List (String × Nat)) : Prop :=
  ∀ k v, strmap_get m k = some v → strmap_get m' k = some v

theorem strmap_get_none_not_mem {m : List (String × Nat)} {k : String}
    (h : strmap_get m k = none) : k ∉ m.map Prod.fst := by
  induction m with
  | nil => simp
  | cons kv rest ih =>
    simp only [strmap_get] at h
    by_cases hk : kv.1 == k
    · simp [hk] at h
    · cases kv with
      | mk k' v =>
        simp only at hk
        rw [if_neg hk] at h
        simp only [List.map_cons, List.mem_cons]
        rintro (rfl | hmem)
        · exact hk (by simp)
        · exact ih h hmem

theorem submap_insert {m : List (String × Nat)} {s : String} {a : Nat}
    (h : strmap_get m s = none) : submapL m ((s, a) :: m) := by
  intro k v hk
  simp only [strmap_get]
  by_cases hs : s == k
  · have : s = k := by simpa using hs
    subst this
    rw [h] at hk
    exact absurd hk (by simp)
  · rw [if_neg hs]
    exact hk

/-- Case analysis on a successful `prot_strings_helper`. -/
theorem helper_cases {st : ProtSt} {s : String} {st' : ProtSt} {a : Nat}
    (h : prot_strings_helper st s = some (st', a)) :
    (strmap_get st.locations s = some a ∧ st' = st) ∨
    (strmap_get st.locations s = none ∧ s.length + 1 ≤ st.left ∧
     st'.locations = (s, st.next) :: st.locations ∧
     st'.next = st.next + (s.length + 1) ∧
     st'.left = st.left - (s.length + 1) ∧ a = st.next) := by
  unfold prot_strings_helper at h
  have hgen : ∀ o, strmap_get st.locations s = o →
      (match o with
       | some loc => some (st, loc)
       | none =>
         if s.length + 1 ≤ st.left then
           some (⟨(s, st.next) :: st.locations,
                  st.next + (s.length + 1),
                  st.left - (s.length + 1)⟩,
                 st.next)
         else none) = some (st', a) →
      (strmap_get st.locations s = some a ∧ st' = st) ∨
      (strmap_get st.locations s = none ∧ s.length + 1 ≤ st.left ∧
       st'.locations = (s, st.next) :: st.locations ∧
       st'.next = st.next + (s.length + 1) ∧
       st'.left = st.left - (s.length + 1) ∧ a = st.next) := by
    intro o ho hm
    cases o with
    | some loc =>
      simp only [Option.some.injEq, Prod.mk.injEq] at hm
      obtain ⟨h1, h2⟩ := hm
      subst h1
      subst h2
      exact Or.inl ⟨ho, rfl⟩
    | none =>
      by_cases hle : s.length + 1 ≤ st.left
      · rw [if_pos hle] at hm
        simp only [Option.some.injEq, Prod.mk.injEq] at hm
        obtain ⟨h1, h2⟩ := hm
        subst h1
        subst h2
        exact Or.inr ⟨ho, hle, rfl, rfl, rfl, rfl⟩
      · rw [if_neg hle] at hm
        exact absurd hm (by simp)
  exact hgen (strmap_get st.locations s) rfl h

theorem helper_submap {st : ProtSt} {s : String} {st' : ProtSt} {a : Nat}
    (h : prot_strings_helper st s = some (st', a)) :
    submapL st.locations st'.locations := by
  rcases helper_cases h with ⟨-, rfl⟩ | ⟨hnone, -, hloc, -⟩
  · exact fun k v hv => hv
  · rw [hloc]
    exact submap_insert hnone

theorem helper_get_res {st : ProtSt} {s : String} {st' : ProtSt} {a : Nat}
    (h : prot_strings_helper st s = some (st', a)) :
    strmap_get st'.locations s = some a := by
  rcases helper_cases h with ⟨hg, rfl⟩ | ⟨-, -, hloc, -, -, ha⟩
  · exact hg
  · rw [hloc, ha]
    simp [strmap_get]

theorem helper_left_ge {st : ProtSt} {s : String} {st' : ProtSt} {a : Nat}
    (h : prot_strings_helper st s = some (st', a)) :
    st.left - (s.length + 1) ≤ st'.left := by
  rcases helper_cases h with ⟨-, rfl⟩ | ⟨-, -, -, -, hleft, -⟩
  · omega
  · omega

theorem helper_some_of_left (st : ProtSt) (s : String)
    (hle : s.length + 1 ≤ st.left) :
    ∃ st' a, prot_strings_helper st s = some (st', a) := by
  unfold prot_strings_helper
  cases hg : strmap_get st.locations s with
  | some loc => exact ⟨st, loc, rfl⟩
  | none => exact ⟨_, _, by rw [if_pos hle]⟩

/-- Arena accounting invariant: `pr_mem_next` sits exactly
`sumSizes locations` bytes past the canary, and the interning map binds each
content at most once. -/
def arenaInv (st : ProtSt) : Prop :=
  st.next = MALLOC_MP_LIM + sumSizes st.locations ∧
  (st.locations.map Prod.fst).Nodup

theorem helper_arenaInv {st : ProtSt} {s : String} {st' : ProtSt} {a : Nat}
    (h : prot_strings_helper st s = some (st', a)) (hi : arenaInv st) :
    arenaInv st' := by
  rcases helper_cases h with ⟨-, rfl⟩ | ⟨hnone, -, hloc, hnext, -, -⟩
  · exact hi
  · obtain ⟨h1, h2⟩ := hi
    refine ⟨?_, ?_⟩
    · rw [hnext, hloc, h1]
      simp only [sumSizes, List.foldr_cons]
      omega
    · rw [hloc]
      simp only [List.map_cons, List.nodup_cons]
      exact ⟨strmap_get_none_not_mem hnone, h2⟩

/-- Case analysis on a successful `protEntry`. -/
theorem protEntry_cases {st : ProtSt} {e : SmpParamG String}
    {pe : SmpParamG PStr} {st' : ProtSt}
    (h : protEntry st e = some (pe, st')) :
    ∃ st1 a1, prot_strings_helper st e.value = some (st1, a1) ∧
      pe.syscall = e.syscall ∧ pe.value = ⟨a1, e.value⟩ ∧ pe.prot = true ∧
      ((e.value2 = none ∧ pe.value2 = none ∧ st' = st1) ∨
       (∃ s2 a2 st2, e.value2 = some s2 ∧
         prot_strings_helper st1 s2 = some (st2, a2) ∧
         pe.value2 = some ⟨a2, s2⟩ ∧ st' = st2)) := by
  unfold protEntry at h
  split at h
  · exact absurd h (by simp)
  · rename_i st1 a1 heq1
    split at h
    · rename_i hv2
      simp only [Option.some.injEq, Prod.mk.injEq] at h
      obtain ⟨hpe, hst⟩ := h
      subst hpe
      exact ⟨st1, a1, heq1, rfl, rfl, rfl, Or.inl ⟨hv2, rfl, hst.symm⟩⟩
    · rename_i s2 hv2
      split at h
      · exact absurd h (by simp)
      · rename_i st2 a2 heq2
        simp only [Option.some.injEq, Prod.mk.injEq] at h
        obtain ⟨hpe, hst⟩ := h
        subst hpe
        exact ⟨st1, a1, heq1, rfl, rfl, rfl,
          Or.inr ⟨s2, a2, st2, hv2, heq2, rfl, hst.symm⟩⟩

theorem protEntry_submap {st : ProtSt} {e : SmpParamG String}
    {pe : SmpParamG PStr} {st' : ProtSt}
    (h : protEntry st e = some (pe, st')) :
    submapL st.locations st'.locations := by
  obtain ⟨st1, a1, h1, -, -, -, hrest⟩ := protEntry_cases h
  rcases hrest with ⟨-, -, rfl⟩ | ⟨s2, a2, st2, -, h2, -, rfl⟩
  · exact helper_submap h1
  · exact fun k v hv => helper_submap h2 k v (helper_submap h1 k v hv)

theorem protEntry_fields {st : ProtSt} {e : SmpParamG String}
    {pe : SmpParamG PStr} {st' : ProtSt}
    (h : protEntry st e = some (pe, st')) :
    ∀ f ∈ pe.value :: pe.value2.toList,
      strmap_get st'.locations f.bytes = some f.addr := by
  obtain ⟨st1, a1, h1, -, hval, -, hrest⟩ := protEntry_cases h
  rcases hrest with ⟨-, hv2, rfl⟩ | ⟨s2, a2, st2, -, h2, hv2, rfl⟩
  · intro f hf
    rw [hv2] at hf
    simp only [Option.toList_none, List.mem_singleton] at hf
    subst hf
    rw [hval]
    exact helper_get_res h1
  · intro f hf
    rw [hv2] at hf
    simp only [Option.toList_some, List.mem_cons, List.not_mem_nil,
      or_false] at hf
    rcases hf with rfl | rfl
    · rw [hval]
      exact helper_submap h2 _ _ (helper_get_res h1)
    · exact helper_get_res h2

theorem protEntry_arenaInv {st : ProtSt} {e : SmpParamG String}
    {pe : SmpParamG PStr} {st' : ProtSt}
    (h : protEntry st e = some (pe, st')) (hi : arenaInv st) :
    arenaInv st' := by
  obtain ⟨st1, a1, h1, -, -, -, hrest⟩ := protEntry_cases h
  rcases hrest with ⟨-, -, rfl⟩ | ⟨s2, a2, st2, -, h2, -, rfl⟩
  · exact helper_arenaInv h1 hi
  · exact helper_arenaInv h2 (helper_arenaInv h1 hi)

theorem protEntry_left_ge {st : ProtSt} {e : SmpParamG String}
    {pe : SmpParamG PStr} {st' : ProtSt}
    (h : protEntry st e = some (pe, st')) :
    st.left - entrySize e ≤ st'.left := by
  obtain ⟨st1, a1, h1, -, -, -, hrest⟩ := protEntry_cases h
  rcases hrest with ⟨hv2, -, rfl⟩ | ⟨s2, a2, st2, hv2, h2, -, rfl⟩
  · have ha := helper_left_ge h1
    have hsz : entrySize e = e.value.length + 1 := by
      simp [entrySize, hv2]
    omega
  · have ha := helper_left_ge h1
    have hb := helper_left_ge h2
    have hsz : entrySize e = e.value.length + 1 + (s2.length + 1) := by
      simp [entrySize, hv2]
    omega

theorem protEntry_some_of_left (st : ProtSt) (e : SmpParamG String)
    (hle : entrySize e ≤ st.left) :
    ∃ pe st', protEntry st e = some (pe, st') := by
  have hle1 : e.value.length + 1 ≤ st.left := by
    unfold entrySize at hle
    omega
  obtain ⟨st1, a1, h1⟩ := helper_some_of_left st e.value hle1
  cases hpe : protEntry st e with
  | some r => exact ⟨r.1, r.2, rfl⟩
  | none =>
    exfalso
    unfold protEntry at hpe
    split at hpe
    · rename_i heq
      rw [h1] at heq
      exact absurd heq (by simp)
    · rename_i st1' a1' heq1
      rw [h1] at heq1
      simp only [Option.some.injEq, Prod.mk.injEq] at heq1
      obtain ⟨hs, ha⟩ := heq1
      subst hs
      subst ha
      split at hpe
      · exact absurd hpe (by simp)
      · rename_i s2 hv2
        have hs2 : s2.length + 1 ≤ st1.left := by
          have hb := helper_left_ge h1
          have hsz : entrySize e = e.value.length + 1 + (s2.length + 1) := by
            simp [entrySize, hv2]
          omega
        obtain ⟨st2, a2, h2⟩ := helper_some_of_left st1 s2 hs2
        split at hpe
        · rename_i heq2
          rw [h2] at heq2
          exact absurd heq2 (by simp)
        · exact absurd hpe (by simp)

theorem protPass_submap {cfg : List (SmpParamG String)} :
    ∀ {st : ProtSt} {pes : List (SmpParamG PStr)} {stf : ProtSt},
      protPass st cfg = some (pes, stf) →
      submapL st.locations stf.locations := by
  induction cfg with
  | nil =>
    intro st pes stf h
    simp only [protPass, Option.some.injEq, Prod.mk.injEq] at h
    rw [← h.2]
    exact fun k v hv => hv
  | cons e rest ih =>
    intro st pes stf h
    simp only [protPass] at h
    split at h
    · exact absurd h (by simp)
    · rename_i pe st1 h1
      split at h
      · exact absurd h (by simp)
      · rename_i pes2 st2 h2
        simp only [Option.some.injEq, Prod.mk.injEq] at h
        rw [← h.2]
        exact fun k v hv => ih h2 k v (protEntry_submap h1 k v hv)

theorem protPass_arenaInv {cfg : List (SmpParamG String)} :
    ∀ {st : ProtSt} {pes : List (SmpParamG PStr)} {stf : ProtSt},
      protPass st cfg = some (pes, stf) → arenaInv st → arenaInv stf := by
  induction cfg with
  | nil =>
    intro st pes stf h hi
    simp only [protPass, Option.some.injEq, Prod.mk.injEq] at h
    rw [← h.2]
    exact hi
  | cons e rest ih =>
    intro st pes stf h hi
    simp only [protPass] at h
    split at h
    · exact absurd h (by simp)
    · rename_i pe st1 h1
      split at h
      · exact absurd h (by simp)
      · rename_i pes2 st2 h2
        simp only [Option.some.injEq, Prod.mk.injEq] at h
        rw [← h.2]
        exact ih h2 (protEntry_arenaInv h1 hi)

theorem protPass_fields {cfg : List (SmpParamG String)} :
    ∀ {st : ProtSt} {pes : List (SmpParamG PStr)} {stf : ProtSt},
      protPass st cfg = some (pes, stf) →
      ∀ pe ∈ pes, ∀ f ∈ pe.value :: pe.value2.toList,
        strmap_get stf.locations f.bytes = some f.addr := by
  induction cfg with
  | nil =>
    intro st pes stf h
    simp only [protPass, Option.some.injEq, Prod.mk.injEq] at h
    rw [← h.1]
    intro pe hpe
    exact absurd hpe (by simp)
  | cons e rest ih =>
    intro st pes stf h
    simp only [protPass] at h
    split at h
    · exact absurd h (by simp)
    · rename_i pe0 st1 h1
      split at h
      · exact absurd h (by simp)
      · rename_i pes2 st2 h2
        simp only [Option.some.injEq, Prod.mk.injEq] at h
        obtain ⟨hpes, hstf⟩ := h
        rw [← hpes, ← hstf]
        intro pe hpe f hf
        rcases List.mem_cons.1 hpe with rfl | hpe
        · exact protPass_submap h2 _ _ (protEntry_fields h1 f hf)
        · exact ih h2 pe hpe f hf

theorem protPass_cons_eq {st : ProtSt} {e : SmpParamG String}
    {rest : List (SmpParamG String)} {pe : SmpParamG PStr} {st1 : ProtSt}
    {pes : List (SmpParamG PStr)} {st2 : ProtSt}
    (h1 : protEntry st e = some (pe, st1))
    (h2 : protPass st1 rest = some (pes, st2)) :
    protPass st (e :: rest) = some (pe :: pes, st2) := by
  simp only [protPass, h1, h2]

theorem protPass_some_of_left {cfg : List (SmpParamG String)} :
    ∀ {st : ProtSt}, pr_mem_size cfg ≤ st.left →
      (protPass st cfg).isSome := by
  induction cfg with
  | nil => intro st h; simp [protPass]
  | cons e rest ih =>
    intro st h
    rw [pr_mem_size_cons] at h
    obtain ⟨pe, st', h1⟩ := protEntry_some_of_left st e (by omega)
    have hrest : pr_mem_size rest ≤ st'.left := by
      have := protEntry_left_ge h1
      omega
    have h2 := ih hrest
    cases h3 : protPass st' rest with
    | none => rw [h3] at h2; exact absurd h2 (by simp)
    | some r2 =>
      rw [protPass_cons_eq h1 (show protPass st' rest = some (r2.1, r2.2) by
        rw [h3])]
      simp

/-! ### C9: the arena sizing makes out-of-space unreachable -/

/-- C9: with the arena sized as `pr_mem_size` (the sum of `strlen+1` over
every string argument across all entries), the copy-and-intern pass never
hits the insufficient-protected-memory branch of `prot_strings_helper`:
`prot_strings` always returns a result. -/
theorem prot_strings_never_out_of_space :
    ∀ cfg : List (SmpParamG String), (prot_strings cfg).isSome :=
  fun cfg => protPass_some_of_left (le_refl (pr_mem_size cfg))

/-! ### C7: interning is idempotent -/

/-- C7: after a successful `prot_strings` pass, any two string fields of the
resulting entries with equal contents point at the same arena address (in
particular, registering the same path twice — even for different syscalls —
yields one canonical protected copy), and the arena space consumed past the
canary is exactly one `strlen+1` block per *distinct* interned string
(`pr_mem_next` equals the canary plus `sumSizes` of the one-binding-per-
content interning map). -/
theorem prot_strings_intern_idempotent :
    ∀ (cfg : List (SmpParamG String)) (pes : List (SmpParamG PStr))
      (stf : ProtSt),
      prot_strings cfg = some (pes, stf) →
      (∀ p1 ∈ pes, ∀ p2 ∈ pes,
         ∀ f1 ∈ p1.value :: p1.value2.toList,
           ∀ f2 ∈ p2.value :: p2.value2.toList,
             f1.bytes = f2.bytes → f1.addr = f2.addr) ∧
      stf.next = MALLOC_MP_LIM + sumSizes stf.locations ∧
      (stf.locations.map Prod.fst).Nodup := by
  intro cfg pes stf h
  have hfields := protPass_fields h
  have hinv : arenaInv stf :=
    protPass_arenaInv h ⟨by simp [sumSizes], by simp⟩
  refine ⟨?_, hinv.1, hinv.2⟩
  intro p1 hp1 p2 hp2 f1 hf1 f2 hf2 hbytes
  have g1 := hfields p1 hp1 f1 hf1
  have g2 := hfields p2 hp2 f2 hf2
  rw [hbytes, g2] at g1
  injection g1 with hinj
  exact hinj.symm

/-- Concrete run for the C7 witness: the same path registered for open and
for stat. -/
def c7cfg : List (SmpParamG String) :=
  [new_element (.real "open") "/tmp/a", new_element (.real "stat") "/tmp/a"]

/-- Entries after protection: both point at the arena offset just past the
canary. -/
def c7pes : List (SmpParamG PStr) :=
  [⟨.real "open", ⟨20971520, "/tmp/a"⟩, none, true⟩,
   ⟨.real "stat", ⟨20971520, "/tmp/a"⟩, none, true⟩]

/-- Final interning state: one binding, 7 bytes consumed, 7 left over (the
second registration was deduplicated). -/
def c7st : ProtSt := ⟨[("/tmp/a", 20971520)], 20971527, 7⟩

/-! ### C1: requests made by each syscall family -/

/-- The flag set `sb_openat` pins. -/
def openatFlags : Nat :=
  O_RDONLY ||| O_NONBLOCK ||| O_LARGEFILE ||| O_DIRECTORY ||| O_CLOEXEC

/-- The kernel name the stat family registration targets (`SCMP_stat`). -/
def statSysName (p : Platform) : String :=
  if p.hasStat64 then "stat64" else "stat"

/-- The kernel call libc makes for `open(path, ...)` on this platform. -/
def openFamilyRequest (p : Platform) (f : String) : Request :=
  if libc_uses_openat_for_open p then
    ⟨"openat", [.num (fdcwdDatum p), .str f]⟩
  else
    ⟨"open", [.str f]⟩

/-- The kernel call libc makes for `opendir(dir)` on this platform. -/
def opendirFamilyRequest (p : Platform) (d : String) : Request :=
  if libc_uses_openat_for_opendir p then
    ⟨"openat", [.num (fdcwdDatum p), .str d]⟩
  else
    ⟨"open", [.str d]⟩

/-- The syscall request each registered family makes on its own path(s). -/
def cmdRequest (p : Platform) : RegCmd → Request
  | .openF f => openFamilyRequest p f
  | .statF f => ⟨statSysName p, [.str f]⟩
  | .chmodF f => ⟨"chmod", [.str f]⟩
  | .chownF f => ⟨"chown", [.str f]⟩
  | .renameF a b => ⟨"rename", [.str a, .str b]⟩
  | .openatF f => ⟨"openat", [.num (fdcwdDatum p), .str f, .num openatFlags]⟩
  | .opendirF d => opendirFamilyRequest p d

/-! #### Registry construction lemmas -/

theorem applyCmd_eq (p : Platform) (cfg : List (SmpParamG String))
    (c : RegCmd) : applyCmd p cfg c = cmdEntry p c :: cfg := by
  cases c <;> rfl

theorem buildCfg_eq_acc (p : Platform) :
    ∀ (cmds : List RegCmd) (acc : List (SmpParamG String)),
      cmds.foldl (applyCmd p) acc = (cmds.map (cmdEntry p)).reverse ++ acc := by
  intro cmds
  induction cmds with
  | nil => intro acc; simp
  | cons c rest ih =>
    intro acc
    simp only [List.foldl_cons, List.map_cons, List.reverse_cons]
    rw [applyCmd_eq, ih]
    simp

theorem mem_buildCfg (p : Platform) {cmds : List RegCmd} {c : RegCmd}
    (h : c ∈ cmds) : cmdEntry p c ∈ buildCfg p cmds := by
  unfold buildCfg
  rw [buildCfg_eq_acc]
  simp only [List.append_nil, List.mem_reverse]
  exact List.mem_map_of_mem _ h

theorem mem_protectAll {cfg : List (SmpParamG String)} {e : SmpParamG String}
    (h : e ∈ cfg) : { e with prot := true } ∈ protectAll cfg :=
  List.mem_map_of_mem _ h

theorem cfgStrings_protectAll (cfg : List (SmpParamG String)) :
    cfgStrings (protectAll cfg) = cfgStrings cfg := by
  induction cfg with
  | nil => rfl
  | cons e rest ih =>
    simp only [cfgStrings, protectAll, List.map_cons, List.flatMap_cons]
      at ih ⊢
    rw [ih]

theorem value_mem_cfgStrings {cfg : List (SmpParamG String)}
    {e : SmpParamG String} (h : e ∈ cfg) : e.value ∈ cfgStrings cfg :=
  List.mem_flatMap.2 ⟨e, h, by simp⟩

theorem value2_mem_cfgStrings {cfg : List (SmpParamG String)}
    {e : SmpParamG String} {v : String} (h : e ∈ cfg)
    (h2 : e.value2 = some v) : v ∈ cfgStrings cfg :=
  List.mem_flatMap.2 ⟨e, h, by simp [h2]⟩

/-! #### Rule extraction helpers -/

theorem mem_filterMap_if {α β : Type} {cfg : List α} {cond : α → Bool}
    {mk : α → β} {r : β}
    (h : r ∈ cfg.filterMap (fun e => if cond e then some (mk e) else none)) :
    ∃ e ∈ cfg, cond e = true ∧ r = mk e := by
  rcases List.mem_filterMap.1 h with ⟨e, he, hfe⟩
  by_cases hc : cond e
  · rw [if_pos hc] at hfe
    exact ⟨e, he, hc, by injection hfe with h2; exact h2.symm⟩
  · rw [if_neg hc] at hfe
    exact absurd hfe (by simp)

theorem condHolds_elim {req : Request} {c : Cond}
    (h : condHolds req c = true) :
    ∃ a, req.args.get? c.arg = some a ∧ holdsCmp c.op c.dat a = true := by
  unfold condHolds at h
  split at h
  · rename_i a heq
    exact ⟨a, heq, h⟩
  · exact absurd h (by simp)

theorem holdsCmp_eq_elim {d a : Datum} (h : holdsCmp .eq d a = true) :
    a = d := by
  simp only [holdsCmp, beq_iff_eq] at h
  exact h.symm

/-- A string-equality condition at index `i` forces the request's argument
there to be exactly that string. -/
theorem str_cond_forces {req : Request} {i : Nat} {v : String}
    (h : condHolds req ⟨i, .eq, .str v⟩ = true) :
    req.args.get? i = some (.str v) := by
  obtain ⟨a, ha, hh⟩ := condHolds_elim h
  rw [ha, holdsCmp_eq_elim hh]

/-! #### Syscall names of the fixed-rule installers -/

theorem sys_all_of_list {l : List Rule} {names : List String}
    (hall : l.all (fun r => decide (r.sys ∈ names)) = true) :
    ∀ r ∈ l, r.sys ∈ names := by
  intro r h
  simpa using List.all_eq_true.1 hall r h

theorem sys_all_of_condList {l : List (Bool × Rule)} {names : List String}
    (hall : (l.map Prod.snd).all (fun r => decide (r.sys ∈ names)) = true) :
    ∀ r ∈ condList l, r.sys ∈ names := by
  intro r h
  simpa using List.all_eq_true.1 hall r (mem_of_mem_condList h)

theorem sb_rt_sigaction_sys (p : Platform) :
    ∀ r ∈ sb_rt_sigaction p, r.sys ∈ ["rt_sigaction"] := by
  intro r h
  obtain ⟨sig, -, rfl⟩ := List.mem_map.1 h
  simp

theorem sb_rt_sigprocmask_sys (p : Platform) :
    ∀ r ∈ sb_rt_sigprocmask p, r.sys ∈ ["rt_sigprocmask"] := by
  simp only [sb_rt_sigprocmask]
  exact sys_all_of_list (by decide)

theorem sb_time_sys (p : Platform) : ∀ r ∈ sb_time p, r.sys ∈ ["time"] := by
  simp only [sb_time]
  apply sys_all_of_condList
  simp only [List.map_cons, List.map_nil]
  decide

theorem sb_accept4_sys (p : Platform) :
    ∀ r ∈ sb_accept4 p, r.sys ∈ ["socketcall", "accept4"] := by
  simp only [sb_accept4]
  apply sys_all_of_condList
  simp only [List.map_cons, List.map_nil]
  decide

theorem sb_mmap2_sys (p : Platform) :
    ∀ r ∈ sb_mmap2 p, r.sys ∈ ["mmap2"] := by
  simp only [sb_mmap2]
  exact sys_all_of_list (by decide)

theorem sb_fcntl64_sys (p : Platform) :
    ∀ r ∈ sb_fcntl64 p, r.sys ∈ ["fcntl64"] := by
  simp only [sb_fcntl64]
  exact sys_all_of_list (by decide)

theorem sb_epoll_ctl_sys (p : Platform) :
    ∀ r ∈ sb_epoll_ctl p, r.sys ∈ ["epoll_ctl"] := by
  simp only [sb_epoll_ctl]
  exact sys_all_of_list (by decide)

theorem sb_prctl_sys (p : Platform) :
    ∀ r ∈ sb_prctl p, r.sys ∈ ["prctl"] := by
  simp only [sb_prctl]
  exact sys_all_of_list (by decide)

theorem sb_mprotect_sys (p : Platform) :
    ∀ r ∈ sb_mprotect p, r.sys ∈ ["mprotect"] := by
  simp only [sb_mprotect]
  exact sys_all_of_list (by decide)

theorem sb_flock_sys (p : Platform) :
    ∀ r ∈ sb_flock p, r.sys ∈ ["flock"] := by
  simp only [sb_flock]
  exact sys_all_of_list (by decide)

theorem sb_futex_sys (p : Platform) :
    ∀ r ∈ sb_futex p, r.sys ∈ ["futex"] := by
  simp only [sb_futex]
  exact sys_all_of_list (by decide)

theorem sb_mremap_sys (p : Platform) :
    ∀ r ∈ sb_mremap p, r.sys ∈ ["mremap"] := by
  simp only [sb_mremap]
  exact sys_all_of_list (by decide)

theorem sb_socket_sys (p : Platform) :
    ∀ r ∈ sb_socket p, r.sys ∈ ["socket"] := by
  simp only [sb_socket]
  apply sys_all_of_condList
  simp only [List.map_cons, List.map_nil]
  decide

theorem sb_setsockopt_sys (p : Platform) :
    ∀ r ∈ sb_setsockopt p, r.sys ∈ ["setsockopt"] := by
  simp only [sb_setsockopt]
  apply sys_all_of_condList
  simp only [List.map_cons, List.map_nil]
  decide

theorem sb_getsockopt_sys (p : Platform) :
    ∀ r ∈ sb_getsockopt p, r.sys ∈ ["getsockopt"] := by
  simp only [sb_getsockopt]
  apply sys_all_of_condList
  simp only [List.map_cons, List.map_nil]
  decide

theorem sb_socketpair_sys (p : Platform) :
    ∀ r ∈ sb_socketpair p, r.sys ∈ ["socketpair"] := by
  simp only [sb_socketpair]
  apply sys_all_of_condList
  simp only [List.map_cons, List.map_nil]
  decide

theorem sb_ioctl_sys (p : Platform) :
    ∀ r ∈ sb_ioctl p, r.sys ∈ ["ioctl"] := by
  simp only [sb_ioctl]
  exact sys_all_of_list (by decide)

theorem sb_kill_sys (p : Platform) :
    ∀ r ∈ sb_kill p, r.sys ∈ ["kill"] := by
  simp only [sb_kill]
  apply sys_all_of_condList
  simp only [List.map_cons, List.map_nil]
  decide

/-- Every syscall name in the parameterless allow-list, over all platform
configurations. -/
def noparAllNames : List String :=
  ["access", "brk", "clock_gettime", "close", "clone", "dup", "clone3",
   "epoll_create", "epoll_wait", "epoll_pwait", "eventfd2", "pipe2", "pipe",
   "fchmod", "fcntl", "fstat", "fstat64", "fsync", "futex", "getdents",
   "getdents64", "getegid", "getegid32", "geteuid", "geteuid32", "getgid",
   "getgid32", "getpid", "getrlimit", "gettimeofday", "gettid", "getuid",
   "getuid32", "lseek", "_llseek", "lstat", "mkdir", "mlockall", "mmap",
   "munmap", "nanosleep", "prlimit", "prlimit64", "read", "rt_sigreturn",
   "rseq", "sched_getaffinity", "sched_yield", "sendmsg", "set_robust_list",
   "setrlimit", "shutdown", "sigaltstack", "sigreturn", "stat", "uname",
   "wait4", "write", "writev", "exit_group", "exit", "madvise", "stat64",
   "getrandom", "sysinfo", "recv", "send", "bind", "listen", "connect",
   "getsockname", "getpeername", "recvmsg", "recvfrom", "sendto", "unlink",
   "unlinkat", "poll", "newfstatat"]

theorem add_noparam_filter_shape (p : Platform) :
    ∀ r ∈ add_noparam_filter p, r.sys ∈ noparAllNames ∧ r.conds = [] := by
  intro r h
  simp only [add_noparam_filter] at h
  obtain ⟨s, hs, rfl⟩ := List.mem_map.1 h
  have h2 := mem_of_mem_condList hs
  have h3 : (noparTable p ++
      [(is_libc_at_least p 2 33 && p.hasNewfstatat, "newfstatat")]).map
      Prod.snd = noparAllNames := rfl
  rw [h3] at h2
  exact ⟨h2, rfl⟩

/-! #### Shapes of the path-taking installers' rules -/

/-- The registry has an entry registering string `q` for syscall `sc`. -/
def registeredFor (cfg : List (SmpParamG String)) (sc : SysId) (q : String) :
    Prop :=
  ∃ e ∈ cfg, e.syscall = sc ∧ e.value = q

instance registeredForDec (cfg : List (SmpParamG String)) (sc : SysId)
    (q : String) : Decidable (registeredFor cfg sc q) :=
  inferInstanceAs (Decidable (∃ e ∈ cfg, e.syscall = sc ∧ e.value = q))

theorem registeredFor_protectAll (cfg : List (SmpParamG String)) (sc : SysId)
    (q : String) :
    registeredFor (protectAll cfg) sc q ↔ registeredFor cfg sc q := by
  unfold registeredFor protectAll
  constructor
  · rintro ⟨e', he', hsc, hval⟩
    obtain ⟨e, he, rfl⟩ := List.mem_map.1 he'
    exact ⟨e, he, hsc, hval⟩
  · rintro ⟨e, he, hsc, hval⟩
    exact ⟨{ e with prot := true }, List.mem_map_of_mem _ he, hsc, hval⟩

theorem renamePair_protectAll (cfg : List (SmpParamG String)) (a b : String) :
    (∃ e ∈ protectAll cfg, e.syscall = .real "rename" ∧ e.value = a ∧
      e.value2 = some b) ↔
    (∃ e ∈ cfg, e.syscall = .real "rename" ∧ e.value = a ∧
      e.value2 = some b) := by
  unfold protectAll
  constructor
  · rintro ⟨e', he', hsc, hval, hval2⟩
    obtain ⟨e, he, rfl⟩ := List.mem_map.1 he'
    exact ⟨e, he, hsc, hval, hval2⟩
  · rintro ⟨e, he, hsc, hval, hval2⟩
    exact ⟨{ e with prot := true }, List.mem_map_of_mem _ he, hsc, hval,
      hval2⟩

theorem sb_open_shape {p : Platform} {cfg : List (SmpParamG String)}
    {r : Rule} (h : r ∈ sb_open p cfg) :
    ∃ e ∈ cfg, e.syscall = .real "open" ∧
      r = allow_file_open p (libc_uses_openat_for_open p) e.value := by
  simp only [sb_open] at h
  obtain ⟨e, he, hc, rfl⟩ := mem_filterMap_if h
  simp only [Bool.and_eq_true, beq_iff_eq] at hc
  exact ⟨e, he, hc.2, rfl⟩

theorem sb_opendir_shape {p : Platform} {cfg : List (SmpParamG String)}
    {r : Rule} (h : r ∈ sb_opendir p cfg) :
    ∃ e ∈ cfg, e.syscall = .phonyOpendir ∧
      r = allow_file_open p (libc_uses_openat_for_opendir p) e.value := by
  simp only [sb_opendir] at h
  obtain ⟨e, he, hc, rfl⟩ := mem_filterMap_if h
  simp only [Bool.and_eq_true, beq_iff_eq] at hc
  exact ⟨e, he, hc.2, rfl⟩

theorem sb_openat_shape {p : Platform} {cfg : List (SmpParamG String)}
    {r : Rule} (h : r ∈ sb_openat p cfg) :
    ∃ e ∈ cfg, e.syscall = .real "openat" ∧ r = ⟨"openat",
      [⟨0, .eq, .num (fdcwdDatum p)⟩, ⟨1, .eq, .str e.value⟩,
       ⟨2, .eq, .num (O_RDONLY ||| O_NONBLOCK ||| O_LARGEFILE |||
                      O_DIRECTORY ||| O_CLOEXEC)⟩]⟩ := by
  simp only [sb_openat] at h
  obtain ⟨e, he, hc, rfl⟩ := mem_filterMap_if h
  simp only [Bool.and_eq_true, beq_iff_eq] at hc
  exact ⟨e, he, hc.2, rfl⟩

theorem sb_chmod_shape {p : Platform} {cfg : List (SmpParamG String)}
    {r : Rule} (h : r ∈ sb_chmod p cfg) :
    ∃ e ∈ cfg, e.syscall = .real "chmod" ∧
      r = ⟨"chmod", [⟨0, .eq, .str e.value⟩]⟩ := by
  simp only [sb_chmod] at h
  obtain ⟨e, he, hc, rfl⟩ := mem_filterMap_if h
  simp only [Bool.and_eq_true, beq_iff_eq] at hc
  exact ⟨e, he, hc.2, rfl⟩

theorem sb_chown_shape {p : Platform} {cfg : List (SmpParamG String)}
    {r : Rule} (h : r ∈ sb_chown p cfg) :
    ∃ e ∈ cfg, e.syscall = .real "chown" ∧
      r = ⟨"chown", [⟨0, .eq, .str e.value⟩]⟩ := by
  simp only [sb_chown] at h
  obtain ⟨e, he, hc, rfl⟩ := mem_filterMap_if h
  simp only [Bool.and_eq_true, beq_iff_eq] at hc
  exact ⟨e, he, hc.2, rfl⟩

theorem sb_rename_shape {p : Platform} {cfg : List (SmpParamG String)}
    {r : Rule} (h : r ∈ sb_rename p cfg) :
    ∃ e ∈ cfg, e.syscall = .real "rename" ∧ r = ⟨"rename",
      [⟨0, .eq, .str e.value⟩,
       ⟨1, .eq, match e.value2 with
                | some v2 => .str v2
                | none => .num 0⟩]⟩ := by
  simp only [sb_rename] at h
  obtain ⟨e, he, hc, rfl⟩ := mem_filterMap_if h
  simp only [Bool.and_eq_true, beq_iff_eq] at hc
  exact ⟨e, he, hc.2, rfl⟩

theorem sb_stat64_shape {p : Platform} {cfg : List (SmpParamG String)}
    {r : Rule} (h : r ∈ sb_stat64 p cfg) :
    ∃ e ∈ cfg, r = ⟨"stat64", [⟨0, .eq, .str e.value⟩]⟩ := by
  simp only [sb_stat64] at h
  obtain ⟨e, he, -, rfl⟩ := mem_filterMap_if h
  exact ⟨e, he, rfl⟩

/-! #### Which strings can appear in a matched path rule -/

/-- Any allow rule of the compiled filter that matches a request of one of
the five path-taking syscalls pins the request's path argument(s) to strings
registered for the issuing family — per-family for chmod, chown and rename,
and within the open/openat/opendir aliasing group for the open and openat
calls (those three families share the open/openat kernel calls through
`allow_file_open`). -/
def PathArgsRegistered (cfg : List (SmpParamG String)) (req : Request) :
    Prop :=
  (req.sys = "open" → ∀ q, req.args.get? 0 = some (.str q) →
    registeredFor cfg (.real "open") q ∨ registeredFor cfg .phonyOpendir q) ∧
  (req.sys = "openat" → ∀ q, req.args.get? 1 = some (.str q) →
    registeredFor cfg (.real "open") q ∨
    registeredFor cfg (.real "openat") q ∨
    registeredFor cfg .phonyOpendir q) ∧
  (req.sys = "chmod" → ∀ q, req.args.get? 0 = some (.str q) →
    registeredFor cfg (.real "chmod") q) ∧
  (req.sys = "chown" → ∀ q, req.args.get? 0 = some (.str q) →
    registeredFor cfg (.real "chown") q) ∧
  (req.sys = "rename" → ∀ a b, req.args.get? 0 = some (.str a) →
    req.args.get? 1 = some (.str b) →
    ∃ e ∈ cfg, e.syscall = .real "rename" ∧ e.value = a ∧
      e.value2 = some b)

theorem pathArgsRegistered_of_ne {cfg : List (SmpParamG String)}
    {req : Request}
    (h1 : req.sys ≠ "open") (h2 : req.sys ≠ "openat")
    (h3 : req.sys ≠ "chmod") (h4 : req.sys ≠ "chown")
    (h5 : req.sys ≠ "rename") : PathArgsRegistered cfg req :=
  ⟨fun h => absurd h h1, fun h => absurd h h2, fun h => absurd h h3,
   fun h => absurd h h4, fun h => absurd h h5⟩

theorem pathArgsRegistered_of_names {cfg : List (SmpParamG String)}
    {req : Request} {r : Rule} {names : List String}
    (hmem : r.sys ∈ names) (hsys : req.sys = r.sys)
    (hforb : ∀ s ∈ names, s ≠ "open" ∧ s ≠ "openat" ∧ s ≠ "chmod" ∧
      s ≠ "chown" ∧ s ≠ "rename") : PathArgsRegistered cfg req := by
  obtain ⟨h1, h2, h3, h4, h5⟩ := hforb r.sys hmem
  exact pathArgsRegistered_of_ne
    (fun hc => h1 (hsys.symm.trans hc))
    (fun hc => h2 (hsys.symm.trans hc))
    (fun hc => h3 (hsys.symm.trans hc))
    (fun hc => h4 (hsys.symm.trans hc))
    (fun hc => h5 (hsys.symm.trans hc))

theorem pathAR_open {cfg : List (SmpParamG String)} {req : Request}
    {v : String} (hsys : req.sys = "open")
    (hget : req.args.get? 0 = some (.str v))
    (hv : registeredFor cfg (.real "open") v ∨
      registeredFor cfg .phonyOpendir v) : PathArgsRegistered cfg req := by
  refine ⟨fun _ q hq => ?_,
    fun hc => absurd (hsys.symm.trans hc) (by decide),
    fun hc => absurd (hsys.symm.trans hc) (by decide),
    fun hc => absurd (hsys.symm.trans hc) (by decide),
    fun hc => absurd (hsys.symm.trans hc) (by decide)⟩
  rw [hget] at hq
  injection hq with hq
  injection hq with hq
  rw [← hq]
  exact hv

theorem pathAR_openat {cfg : List (SmpParamG String)} {req : Request}
    {v : String} (hsys : req.sys = "openat")
    (hget : req.args.get? 1 = some (.str v))
    (hv : registeredFor cfg (.real "open") v ∨
      registeredFor cfg (.real "openat") v ∨
      registeredFor cfg .phonyOpendir v) : PathArgsRegistered cfg req := by
  refine ⟨fun hc => absurd (hsys.symm.trans hc) (by decide),
    fun _ q hq => ?_,
    fun hc => absurd (hsys.symm.trans hc) (by decide),
    fun hc => absurd (hsys.symm.trans hc) (by decide),
    fun hc => absurd (hsys.symm.trans hc) (by decide)⟩
  rw [hget] at hq
  injection hq with hq
  injection hq with hq
  rw [← hq]
  exact hv

theorem pathAR_chmod {cfg : List (SmpParamG String)} {req : Request}
    {v : String} (hsys : req.sys = "chmod")
    (hget : req.args.get? 0 = some (.str v))
    (hv : registeredFor cfg (.real "chmod") v) :
    PathArgsRegistered cfg req := by
  refine ⟨fun hc => absurd (hsys.symm.trans hc) (by decide),
    fun hc => absurd (hsys.symm.trans hc) (by decide),
    fun _ q hq => ?_,
    fun hc => absurd (hsys.symm.trans hc) (by decide),
    fun hc => absurd (hsys.symm.trans hc) (by decide)⟩
  rw [hget] at hq
  injection hq with hq
  injection hq with hq
  rw [← hq]
  exact hv

theorem pathAR_chown {cfg : List (SmpParamG String)} {req : Request}
    {v : String} (hsys : req.sys = "chown")
    (hget : req.args.get? 0 = some (.str v))
    (hv : registeredFor cfg (.real "chown") v) :
    PathArgsRegistered cfg req := by
  refine ⟨fun hc => absurd (hsys.symm.trans hc) (by decide),
    fun hc => absurd (hsys.symm.trans hc) (by decide),
    fun hc => absurd (hsys.symm.trans hc) (by decide),
    fun _ q hq => ?_,
    fun hc => absurd (hsys.symm.trans hc) (by decide)⟩
  rw [hget] at hq
  injection hq with hq
  injection hq with hq
  rw [← hq]
  exact hv

/-- An `allow_file_open` rule coming from an entry of the `open` or
`opendir` family (syscall `sc`, with `hgroup` naming the disjunct it
contributes) constrains the request per the aliasing group. -/
theorem afo_pathArgsRegistered {p : Platform} {cfg : List (SmpParamG String)}
    {req : Request} {uo : Bool} {e : SmpParamG String} (he : e ∈ cfg)
    (hgroup : (e.syscall = .real "open" ∨ e.syscall = .phonyOpendir))
    (hsys : req.sys = (allow_file_open p uo e.value).sys)
    (hconds : ∀ c ∈ (allow_file_open p uo e.value).conds,
      condHolds req c = true) :
    PathArgsRegistered cfg req := by
  have hreg : registeredFor cfg (.real "open") e.value ∨
      registeredFor cfg .phonyOpendir e.value := by
    rcases hgroup with hsc | hsc
    · exact Or.inl ⟨e, he, hsc, rfl⟩
    · exact Or.inr ⟨e, he, hsc, rfl⟩
  cases uo with
  | true =>
    simp only [allow_file_open, if_true] at hsys hconds
    refine pathAR_openat hsys
      (str_cond_forces (hconds ⟨1, .eq, .str e.value⟩ (by simp))) ?_
    rcases hreg with hr | hr
    · exact Or.inl hr
    · exact Or.inr (Or.inr hr)
  | false =>
    simp only [allow_file_open, Bool.false_eq_true, if_false] at hsys hconds
    exact pathAR_open hsys
      (str_cond_forces (hconds ⟨0, .eq, .str e.value⟩ (by simp))) hreg

/-- The master constraint: every allow rule of the compiled filter that
matches a request of a path-taking syscall only does so with registered
strings in the path argument positions. -/
theorem install_filter_path_constraint :
    ∀ (p : Platform) (cfg : List (SmpParamG String)) (base : Nat) (r : Rule)
      (req : Request),
      r ∈ (install_filter p cfg base).allows → ruleMatches r req = true →
      PathArgsRegistered cfg req := by
  intro p cfg base r req hr hm
  have hsys : req.sys = r.sys := (ruleMatches_sys hm).symm
  have hconds : ∀ c ∈ r.conds, condHolds req c = true := by
    simp only [ruleMatches, Bool.and_eq_true, List.all_eq_true] at hm
    exact hm.2
  simp only [install_filter] at hr
  rcases List.mem_append.1 hr with hr1 | hnp
  · rcases List.mem_append.1 hr1 with hmp | hpar
    · have hs : r.sys ∈ ["mprotect"] := by
        simp only [prot_rules_mprotect, List.mem_cons, List.not_mem_nil,
          or_false] at hmp
        rcases hmp with rfl | rfl <;> simp
      exact pathArgsRegistered_of_names hs hsys (by decide)
    · simp only [add_param_filter] at hpar
      obtain ⟨L, hL, hrL⟩ := List.mem_flatten.1 hpar
      have hL2 := mem_of_mem_condList hL
      simp only [filter_func, List.map_cons, List.map_nil, List.mem_cons,
        List.not_mem_nil, or_false] at hL2
      rcases hL2 with rfl | rfl | rfl | rfl | rfl | rfl | rfl | rfl | rfl |
        rfl | rfl | rfl | rfl | rfl | rfl | rfl | rfl | rfl | rfl | rfl |
        rfl | rfl | rfl | rfl | rfl
      · exact pathArgsRegistered_of_names (sb_rt_sigaction_sys p r hrL)
          hsys (by decide)
      · exact pathArgsRegistered_of_names (sb_rt_sigprocmask_sys p r hrL)
          hsys (by decide)
      · exact pathArgsRegistered_of_names (sb_time_sys p r hrL)
          hsys (by decide)
      · exact pathArgsRegistered_of_names (sb_accept4_sys p r hrL)
          hsys (by decide)
      · exact pathArgsRegistered_of_names (sb_mmap2_sys p r hrL)
          hsys (by decide)
      · obtain ⟨e, he, hsc, rfl⟩ := sb_chown_shape hrL
        exact pathAR_chown hsys (str_cond_forces (hconds _ (by simp)))
          ⟨e, he, hsc, rfl⟩
      · obtain ⟨e, he, hsc, rfl⟩ := sb_chmod_shape hrL
        exact pathAR_chmod hsys (str_cond_forces (hconds _ (by simp)))
          ⟨e, he, hsc, rfl⟩
      · obtain ⟨e, he, hsc, rfl⟩ := sb_open_shape hrL
        exact afo_pathArgsRegistered he (Or.inl hsc) hsys hconds
      · obtain ⟨e, he, hsc, rfl⟩ := sb_openat_shape hrL
        exact pathAR_openat hsys (str_cond_forces (hconds _ (by simp)))
          (Or.inr (Or.inl ⟨e, he, hsc, rfl⟩))
      · obtain ⟨e, he, hsc, rfl⟩ := sb_opendir_shape hrL
        exact afo_pathArgsRegistered he (Or.inr hsc) hsys hconds
      · obtain ⟨e, he, hsc, rfl⟩ := sb_rename_shape hrL
        have hget0 : req.args.get? 0 = some (.str e.value) :=
          str_cond_forces (hconds _ (by simp))
        refine ⟨fun hc => absurd (hsys.symm.trans hc) (by simp),
          fun hc => absurd (hsys.symm.trans hc) (by simp),
          fun hc => absurd (hsys.symm.trans hc) (by simp),
          fun hc => absurd (hsys.symm.trans hc) (by simp),
          fun _ a b hqa hqb => ?_⟩
        rw [hget0] at hqa
        injection hqa with hqa
        injection hqa with hqa
        have hc1 := condHolds_elim (hconds
          ⟨1, .eq, match e.value2 with
                   | some v2 => .str v2
                   | none => .num 0⟩ (by simp))
        obtain ⟨a2, ha2, hh2⟩ := hc1
        rw [holdsCmp_eq_elim hh2] at ha2
        rw [ha2] at hqb
        cases hv2 : e.value2 with
        | some v2 =>
          rw [hv2] at hqb
          injection hqb with hqb
          injection hqb with hqb
          exact ⟨e, he, hsc, hqa, by rw [hv2, hqb]⟩
        | none =>
          rw [hv2] at hqb
          injection hqb with hqb
          exact absurd hqb (by simp)
      · exact pathArgsRegistered_of_names (sb_fcntl64_sys p r hrL)
          hsys (by decide)
      · exact pathArgsRegistered_of_names (sb_epoll_ctl_sys p r hrL)
          hsys (by decide)
      · exact pathArgsRegistered_of_names (sb_prctl_sys p r hrL)
          hsys (by decide)
      · exact pathArgsRegistered_of_names (sb_mprotect_sys p r hrL)
          hsys (by decide)
      · exact pathArgsRegistered_of_names (sb_flock_sys p r hrL)
          hsys (by decide)
      · exact pathArgsRegistered_of_names (sb_futex_sys p r hrL)
          hsys (by decide)
      · exact pathArgsRegistered_of_names (sb_mremap_sys p r hrL)
          hsys (by decide)
      · obtain ⟨e, he, rfl⟩ := sb_stat64_shape hrL
        have hmemS : (⟨"stat64", [⟨0, .eq, .str e.value⟩]⟩ : Rule).sys ∈
            ["stat64"] := by simp
        exact pathArgsRegistered_of_names hmemS hsys (by decide)
      · exact pathArgsRegistered_of_names (sb_socket_sys p r hrL)
          hsys (by decide)
      · exact pathArgsRegistered_of_names (sb_setsockopt_sys p r hrL)
          hsys (by decide)
      · exact pathArgsRegistered_of_names (sb_getsockopt_sys p r hrL)
          hsys (by decide)
      · exact pathArgsRegistered_of_names (sb_socketpair_sys p r hrL)
          hsys (by decide)
      · exact pathArgsRegistered_of_names (sb_ioctl_sys p r hrL)
          hsys (by decide)
      · exact pathArgsRegistered_of_names (sb_kill_sys p r hrL)
          hsys (by decide)
  · obtain ⟨hmem, -⟩ := add_noparam_filter_shape p r hnp
    exact pathArgsRegistered_of_names hmem hsys (by decide)

/-! #### Decision helpers -/

theorem kills_no_match {base : Nat} {req : Request}
    (h1 : req.sys ≠ "mremap") (h2 : req.sys ≠ "munmap") :
    (prot_rules_kill base).any (fun r => ruleMatches r req) = false := by
  have a1 : ("mremap" == req.sys) = false := by
    simp only [beq_eq_false_iff_ne]
    exact fun he => h1 he.symm
  have a2 : ("munmap" == req.sys) = false := by
    simp only [beq_eq_false_iff_ne]
    exact fun he => h2 he.symm
  simp [prot_rules_kill, ruleMatches, a1, a2]

theorem decision_eq_allow {f : SeccompFilter} {req : Request}
    (hk : f.kills.any (fun r => ruleMatches r req) = false)
    (ha : ∃ r ∈ f.allows, ruleMatches r req = true) :
    decision f req = .allow := by
  unfold decision
  rw [hk, List.any_eq_true.2 ha]
  simp

theorem decision_eq_deny {f : SeccompFilter} {req : Request}
    (hk : f.kills.any (fun r => ruleMatches r req) = false)
    (ha : f.allows.any (fun r => ruleMatches r req) = false) :
    decision f req = .denyEperm := by
  unfold decision
  rw [hk, ha]
  simp

theorem param_rule_in_allows {p : Platform} {cfg : List (SmpParamG String)}
    {base : Nat} {L : List Rule} {r : Rule}
    (hmemL : L ∈ condList (filter_func p cfg)) (hr : r ∈ L) :
    r ∈ (install_filter p cfg base).allows := by
  simp only [install_filter]
  refine List.mem_append.2 (Or.inl (List.mem_append.2 (Or.inr ?_)))
  simp only [add_param_filter]
  exact List.mem_flatten.2 ⟨L, hmemL, hr⟩

theorem nopar_rule_in_allows {p : Platform} {cfg : List (SmpParamG String)}
    {base : Nat} {r : Rule} (h : r ∈ add_noparam_filter p) :
    r ∈ (install_filter p cfg base).allows := by
  simp only [install_filter]
  exact List.mem_append.2 (Or.inr h)

theorem sb_open_in_condList (p : Platform) (cfg : List (SmpParamG String)) :
    sb_open p cfg ∈ condList (filter_func p cfg) := by
  apply mem_condList_of_mem
  simp [filter_func]

theorem sb_openat_in_condList (p : Platform) (cfg : List (SmpParamG String)) :
    sb_openat p cfg ∈ condList (filter_func p cfg) := by
  apply mem_condList_of_mem
  simp [filter_func]

theorem sb_opendir_in_condList (p : Platform)
    (cfg : List (SmpParamG String)) :
    sb_opendir p cfg ∈ condList (filter_func p cfg) := by
  apply mem_condList_of_mem
  simp [filter_func]

theorem sb_chmod_in_condList (p : Platform) (cfg : List (SmpParamG String)) :
    sb_chmod p cfg ∈ condList (filter_func p cfg) := by
  apply mem_condList_of_mem
  simp [filter_func]

theorem sb_chown_in_condList (p : Platform) (cfg : List (SmpParamG String)) :
    sb_chown p cfg ∈ condList (filter_func p cfg) := by
  apply mem_condList_of_mem
  simp [filter_func]

theorem sb_rename_in_condList (p : Platform)
    (cfg : List (SmpParamG String)) :
    sb_rename p cfg ∈ condList (filter_func p cfg) := by
  apply mem_condList_of_mem
  simp [filter_func]

/-- A syscall in the unconditional part of `filter_nopar_gen` yields an
unconditional allow rule. -/
theorem nopar_name_rule {p : Platform} {name : String}
    (h : (true, name) ∈ noparTable p ++
      [(is_libc_at_least p 2 33 && p.hasNewfstatat, "newfstatat")]) :
    (⟨name, []⟩ : Rule) ∈ add_noparam_filter p := by
  simp only [add_noparam_filter]
  exact List.mem_map_of_mem _ (mem_condList_of_mem h)

theorem allowAll_matches {name : String} {args : List Datum} :
    ruleMatches ⟨name, []⟩ ⟨name, args⟩ = true := by
  simp [ruleMatches]

/-! #### Positive direction: registered paths are allowed -/

theorem afo_matches_family {p : Platform} {uo : Bool} {f : String} :
    ruleMatches (allow_file_open p uo f)
      (if uo then (⟨"openat", [.num (fdcwdDatum p), .str f]⟩ : Request)
       else ⟨"open", [.str f]⟩) = true := by
  cases uo with
  | true => simp [allow_file_open, ruleMatches, condHolds, holdsCmp]
  | false => simp [allow_file_open, ruleMatches, condHolds, holdsCmp]

theorem open_family_allowed {p : Platform} {cfg : List (SmpParamG String)}
    {base : Nat} {f : String}
    (hmem : (⟨.real "open", f, none, true⟩ : SmpParamG String) ∈ cfg) :
    decision (install_filter p cfg base) (openFamilyRequest p f) = .allow := by
  have hrule : allow_file_open p (libc_uses_openat_for_open p) f ∈
      sb_open p cfg := by
    simp only [sb_open]
    exact List.mem_filterMap.2 ⟨_, hmem, by simp⟩
  refine decision_eq_allow ?_
    ⟨_, param_rule_in_allows (sb_open_in_condList p cfg) hrule, ?_⟩
  · refine kills_no_match ?_ ?_ <;>
      (unfold openFamilyRequest; split <;> simp)
  · unfold openFamilyRequest
    exact afo_matches_family

theorem opendir_family_allowed {p : Platform} {cfg : List (SmpParamG String)}
    {base : Nat} {d : String}
    (hmem : (⟨.phonyOpendir, d, none, true⟩ : SmpParamG String) ∈ cfg) :
    decision (install_filter p cfg base) (opendirFamilyRequest p d) =
      .allow := by
  have hrule : allow_file_open p (libc_uses_openat_for_opendir p) d ∈
      sb_opendir p cfg := by
    simp only [sb_opendir]
    exact List.mem_filterMap.2 ⟨_, hmem, by simp⟩
  refine decision_eq_allow ?_
    ⟨_, param_rule_in_allows (sb_opendir_in_condList p cfg) hrule, ?_⟩
  · refine kills_no_match ?_ ?_ <;>
      (unfold opendirFamilyRequest; split <;> simp)
  · unfold opendirFamilyRequest
    exact afo_matches_family

theorem openat_family_allowed {p : Platform} {cfg : List (SmpParamG String)}
    {base : Nat} {f : String}
    (hmem : (⟨.real "openat", f, none, true⟩ : SmpParamG String) ∈ cfg) :
    decision (install_filter p cfg base)
      ⟨"openat", [.num (fdcwdDatum p), .str f, .num openatFlags]⟩ =
      .allow := by
  have hrule : (⟨"openat",
      [⟨0, .eq, .num (fdcwdDatum p)⟩, ⟨1, .eq, .str f⟩,
       ⟨2, .eq, .num (O_RDONLY ||| O_NONBLOCK ||| O_LARGEFILE |||
                      O_DIRECTORY ||| O_CLOEXEC)⟩]⟩ : Rule) ∈
      sb_openat p cfg := by
    simp only [sb_openat]
    exact List.mem_filterMap.2 ⟨_, hmem, by simp⟩
  refine decision_eq_allow (kills_no_match (by simp) (by simp))
    ⟨_, param_rule_in_allows (sb_openat_in_condList p cfg) hrule, ?_⟩
  simp [ruleMatches, condHolds, holdsCmp, openatFlags]

theorem chmod_family_allowed {p : Platform} {cfg : List (SmpParamG String)}
    {base : Nat} {f : String}
    (hmem : (⟨.real "chmod", f, none, true⟩ : SmpParamG String) ∈ cfg) :
    decision (install_filter p cfg base) ⟨"chmod", [.str f]⟩ = .allow := by
  have hrule : (⟨"chmod", [⟨0, .eq, .str f⟩]⟩ : Rule) ∈ sb_chmod p cfg := by
    simp only [sb_chmod]
    exact List.mem_filterMap.2 ⟨_, hmem, by simp⟩
  refine decision_eq_allow (kills_no_match (by simp) (by simp))
    ⟨_, param_rule_in_allows (sb_chmod_in_condList p cfg) hrule, ?_⟩
  simp [ruleMatches, condHolds, holdsCmp]

theorem chown_family_allowed {p : Platform} {cfg : List (SmpParamG String)}
    {base : Nat} {f : String}
    (hmem : (⟨.real "chown", f, none, true⟩ : SmpParamG String) ∈ cfg) :
    decision (install_filter p cfg base) ⟨"chown", [.str f]⟩ = .allow := by
  have hrule : (⟨"chown", [⟨0, .eq, .str f⟩]⟩ : Rule) ∈ sb_chown p cfg := by
    simp only [sb_chown]
    exact List.mem_filterMap.2 ⟨_, hmem, by simp⟩
  refine decision_eq_allow (kills_no_match (by simp) (by simp))
    ⟨_, param_rule_in_allows (sb_chown_in_condList p cfg) hrule, ?_⟩
  simp [ruleMatches, condHolds, holdsCmp]

theorem rename_family_allowed {p : Platform} {cfg : List (SmpParamG String)}
    {base : Nat} {a b : String}
    (hmem : (⟨.real "rename", a, some b, true⟩ : SmpParamG String) ∈ cfg) :
    decision (install_filter p cfg base) ⟨"rename", [.str a, .str b]⟩ =
      .allow := by
  have hrule : (⟨"rename", [⟨0, .eq, .str a⟩, ⟨1, .eq, .str b⟩]⟩ : Rule) ∈
      sb_rename p cfg := by
    simp only [sb_rename]
    exact List.mem_filterMap.2 ⟨_, hmem, by simp⟩
  refine decision_eq_allow (kills_no_match (by simp) (by simp))
    ⟨_, param_rule_in_allows (sb_rename_in_condList p cfg) hrule, ?_⟩
  simp [ruleMatches, condHolds, holdsCmp]

theorem stat_request_allowed (p : Platform) (cfg : List (SmpParamG String))
    (base : Nat) (q : String) :
    decision (install_filter p cfg base) ⟨"stat", [.str q]⟩ = .allow := by
  refine decision_eq_allow (kills_no_match (by simp) (by simp))
    ⟨⟨"stat", []⟩, nopar_rule_in_allows (nopar_name_rule ?_),
     allowAll_matches⟩
  simp [noparTable]

theorem stat64_request_allowed (p : Platform) (cfg : List (SmpParamG String))
    (base : Nat) (q : String) (hst : p.hasStat64 = true) :
    decision (install_filter p cfg base) ⟨"stat64", [.str q]⟩ = .allow := by
  refine decision_eq_allow (kills_no_match (by simp) (by simp))
    ⟨⟨"stat64", []⟩, nopar_rule_in_allows (nopar_name_rule ?_),
     allowAll_matches⟩
  rw [← hst]
  simp [noparTable]

theorem deny_of_unregistered {p : Platform} {cfg : List (SmpParamG String)}
    {base : Nat} {req : Request}
    (hk1 : req.sys ≠ "mremap") (hk2 : req.sys ≠ "munmap")
    (hcontra : PathArgsRegistered cfg req → False) :
    decision (install_filter p cfg base) req = .denyEperm := by
  apply decision_eq_deny (kills_no_match hk1 hk2)
  cases hany : (install_filter p cfg base).allows.any
      (fun r => ruleMatches r req) with
  | false => rfl
  | true =>
    obtain ⟨r, hr, hm⟩ := List.any_eq_true.1 hany
    exact absurd (install_filter_path_constraint p cfg base r req hr hm)
      hcontra

/-! ### C1: the end-to-end allow/deny property -/

/-- The open/openat aliasing `sb_open` creates on libc ≥ 2.26: an open
registration emits an openat rule constraining only the directory fd and the
path — no flag condition — so *any* openat call on that path at `AT_FDCWD`
is allowed, although the path was never registered for the openat family. -/
theorem openat_allowed_via_open_registration {p : Platform}
    {cfg : List (SmpParamG String)} {base : Nat} {f : String}
    (hmem : (⟨.real "open", f, none, true⟩ : SmpParamG String) ∈ cfg)
    (huo : libc_uses_openat_for_open p = true) :
    ∀ args : List Datum, args.get? 0 = some (.num (fdcwdDatum p)) →
      args.get? 1 = some (.str f) →
      decision (install_filter p cfg base) ⟨"openat", args⟩ = .allow := by
  intro args h0 h1
  have hrule : allow_file_open p (libc_uses_openat_for_open p) f ∈
      sb_open p cfg := by
    simp only [sb_open]
    exact List.mem_filterMap.2 ⟨_, hmem, by simp⟩
  have hr2 : allow_file_open p (libc_uses_openat_for_open p) f =
      ⟨"openat", [⟨0, .eq, .num (fdcwdDatum p)⟩, ⟨1, .eq, .str f⟩]⟩ := by
    rw [huo]
    simp [allow_file_open]
  refine decision_eq_allow (kills_no_match (by simp) (by simp))
    ⟨_, param_rule_in_allows (sb_open_in_condList p cfg) hrule, ?_⟩
  rw [hr2]
  rw [List.get?_eq_getElem?] at h0 h1
  simp [ruleMatches, condHolds, holdsCmp, h0, h1]

/-- C1 amended: for every sequence of registrations compiled into a filter
(entries protected, as after a successful install):
(1) every registered path is permitted for its own family's kernel call;
(2) denial is per-family for chmod, chown and rename: a path not registered
for chmod (resp. chown) is denied that call even if registered for other
families, and a rename pair not registered as such is denied;
(3) the open, openat and opendir families form one aliasing group sharing
the open/openat kernel calls: a path registered for none of the three is
denied to both calls, but within the group one family's registration can
allow another's call — on libc ≥ 2.26 an open registration allows
`openat(AT_FDCWD, path, any flags)` despite no openat registration (last
conjunct);
(4) the stat family is excepted from denial entirely: stat (and stat64
where it exists) is in the parameterless allow-list, so every path may be
stat-ed, registered or not. -/
theorem filter_allows_registered_denies_unregistered :
    ∀ (p : Platform) (cmds : List RegCmd) (base : Nat),
      (∀ c ∈ cmds,
        decision (install_filter p (protectAll (buildCfg p cmds)) base)
          (cmdRequest p c) = .allow) ∧
      (∀ q, ¬ registeredFor (buildCfg p cmds) (.real "chmod") q →
        ∀ args : List Datum, args.get? 0 = some (.str q) →
          decision (install_filter p (protectAll (buildCfg p cmds)) base)
            ⟨"chmod", args⟩ = .denyEperm) ∧
      (∀ q, ¬ registeredFor (buildCfg p cmds) (.real "chown") q →
        ∀ args : List Datum, args.get? 0 = some (.str q) →
          decision (install_filter p (protectAll (buildCfg p cmds)) base)
            ⟨"chown", args⟩ = .denyEperm) ∧
      (∀ a b, (¬ ∃ e ∈ buildCfg p cmds, e.syscall = .real "rename" ∧
          e.value = a ∧ e.value2 = some b) →
        decision (install_filter p (protectAll (buildCfg p cmds)) base)
          ⟨"rename", [.str a, .str b]⟩ = .denyEperm) ∧
      (∀ q, ¬ registeredFor (buildCfg p cmds) (.real "open") q →
        ¬ registeredFor (buildCfg p cmds) (.real "openat") q →
        ¬ registeredFor (buildCfg p cmds) .phonyOpendir q →
        ∀ args : List Datum,
          (args.get? 0 = some (.str q) →
            decision (install_filter p (protectAll (buildCfg p cmds)) base)
              ⟨"open", args⟩ = .denyEperm) ∧
          (args.get? 1 = some (.str q) →
            decision (install_filter p (protectAll (buildCfg p cmds)) base)
              ⟨"openat", args⟩ = .denyEperm)) ∧
      (∀ q, decision (install_filter p (protectAll (buildCfg p cmds)) base)
        ⟨"stat", [.str q]⟩ = .allow) ∧
      (p.hasStat64 = true →
        ∀ q, decision (install_filter p (protectAll (buildCfg p cmds)) base)
          ⟨"stat64", [.str q]⟩ = .allow) ∧
      (∀ f, RegCmd.openF f ∈ cmds → libc_uses_openat_for_open p = true →
        ∀ args : List Datum, args.get? 0 = some (.num (fdcwdDatum p)) →
          args.get? 1 = some (.str f) →
          decision (install_filter p (protectAll (buildCfg p cmds)) base)
            ⟨"openat", args⟩ = .allow) := by
  intro p cmds base
  refine ⟨?_, ?_, ?_, ?_, ?_, fun q => stat_request_allowed p _ base q,
    fun hst q => stat64_request_allowed p _ base q hst, ?_⟩
  · intro c hc
    have hmem := mem_protectAll (mem_buildCfg p hc)
    cases c with
    | openF f =>
      simp only [cmdEntry, new_element, new_element2] at hmem
      simp only [cmdRequest]
      exact open_family_allowed hmem
    | statF f =>
      simp only [cmdRequest]
      by_cases hst : p.hasStat64
      · have hn : statSysName p = "stat64" := by simp [statSysName, hst]
        rw [hn]
        exact stat64_request_allowed p _ base f hst
      · have hn : statSysName p = "stat" := by simp [statSysName, hst]
        rw [hn]
        exact stat_request_allowed p _ base f
    | chmodF f =>
      simp only [cmdEntry, new_element, new_element2] at hmem
      simp only [cmdRequest]
      exact chmod_family_allowed hmem
    | chownF f =>
      simp only [cmdEntry, new_element, new_element2] at hmem
      simp only [cmdRequest]
      exact chown_family_allowed hmem
    | renameF a b =>
      simp only [cmdEntry, new_element2] at hmem
      simp only [cmdRequest]
      exact rename_family_allowed hmem
    | openatF f =>
      simp only [cmdEntry, new_element, new_element2] at hmem
      simp only [cmdRequest]
      exact openat_family_allowed hmem
    | opendirF d =>
      simp only [cmdEntry, new_element, new_element2] at hmem
      simp only [cmdRequest]
      exact opendir_family_allowed hmem
  · intro q hnot args h0
    exact deny_of_unregistered (by simp) (by simp)
      (fun hP => hnot
        ((registeredFor_protectAll _ _ _).1 (hP.2.2.1 rfl q h0)))
  · intro q hnot args h0
    exact deny_of_unregistered (by simp) (by simp)
      (fun hP => hnot
        ((registeredFor_protectAll _ _ _).1 (hP.2.2.2.1 rfl q h0)))
  · intro a b hnot
    exact deny_of_unregistered (by simp) (by simp)
      (fun hP => hnot
        ((renamePair_protectAll _ _ _).1 (hP.2.2.2.2 rfl a b rfl rfl)))
  · intro q hno hna hnd args
    constructor
    · intro h0
      refine deny_of_unregistered (by simp) (by simp) (fun hP => ?_)
      rcases hP.1 rfl q h0 with hr | hr
      · exact hno ((registeredFor_protectAll _ _ _).1 hr)
      · exact hnd ((registeredFor_protectAll _ _ _).1 hr)
    · intro h1
      refine deny_of_unregistered (by simp) (by simp) (fun hP => ?_)
      rcases hP.2.1 rfl q h1 with hr | hr | hr
      · exact hno ((registeredFor_protectAll _ _ _).1 hr)
      · exact hna ((registeredFor_protectAll _ _ _).1 hr)
      · exact hnd ((registeredFor_protectAll _ _ _).1 hr)
  · intro f hf huo args h0 h1
    have hmem := mem_protectAll (mem_buildCfg p hf)
    simp only [cmdEntry, new_element, new_element2] at hmem
    exact openat_allowed_via_open_registration hmem huo args h0 h1

/-- Witness for C1's amended statement at a concrete registration sequence:
the registered open path is usable; the same path, registered only for open,
is still denied to chmod (per-family denial); an unregistered path is
allowed to stat (the exception); and the open registration allows openat on
that path with write flags (the aliasing). -/
theorem filter_allows_registered_denies_unregistered_witness :
    decision (install_filter linux_x86_64
        (protectAll (buildCfg linux_x86_64 [.openF "/a"])) 4096)
      (cmdRequest linux_x86_64 (.openF "/a")) = .allow ∧
    decision (install_filter linux_x86_64
        (protectAll (buildCfg linux_x86_64 [.openF "/a"])) 4096)
      ⟨"chmod", [.str "/a"]⟩ = .denyEperm ∧
    decision (install_filter linux_x86_64
        (protectAll (buildCfg linux_x86_64 [.openF "/a"])) 4096)
      ⟨"stat", [.str "/b"]⟩ = .allow ∧
    decision (install_filter linux_x86_64
        (protectAll (buildCfg linux_x86_64 [.openF "/a"])) 4096)
      ⟨"openat", [.num (fdcwdDatum linux_x86_64), .str "/a", .num 577]⟩ =
      .allow := by
  have h := filter_allows_registered_denies_unregistered
    linux_x86_64 [.openF "/a"] 4096
  exact ⟨h.1 _ (by simp),
    h.2.1 "/a" (by decide) [.str "/a"] rfl,
    h.2.2.2.2.2.1 "/b",
    h.2.2.2.2.2.2.2 "/a" (by simp) (by decide)
      [.num (fdcwdDatum linux_x86_64), .str "/a", .num 577] rfl rfl⟩

/-- C1 counterexample, exhibiting both failures of the original claim on a
concrete registry where only `/var/lib/tor/state` is registered, for the
open family.  First, `stat("/etc/passwd")` is *allowed* although
`/etc/passwd` was never registered for the stat family (stat is in the
parameterless allow-list).  Second, `openat(AT_FDCWD, "/var/lib/tor/state",
O_WRONLY|O_CREAT|O_TRUNC)` is *allowed* although that path was never
registered for the openat family: on this libc (2.31 ≥ 2.26) the open
registration emits an openat rule with no flag condition. -/
theorem stat_and_openat_allowed_despite_registration_gaps :
    (¬ registeredFor (buildCfg linux_x86_64 [.openF "/var/lib/tor/state"])
      (SCMP_stat linux_x86_64) "/etc/passwd") ∧
    decision (install_filter linux_x86_64
        (protectAll (buildCfg linux_x86_64 [.openF "/var/lib/tor/state"]))
        4096)
      ⟨"stat", [.str "/etc/passwd"]⟩ = .allow ∧
    (¬ registeredFor (buildCfg linux_x86_64 [.openF "/var/lib/tor/state"])
      (.real "openat") "/var/lib/tor/state") ∧
    decision (install_filter linux_x86_64
        (protectAll (buildCfg linux_x86_64 [.openF "/var/lib/tor/state"]))
        4096)
      ⟨"openat", [.num (fdcwdDatum linux_x86_64),
                  .str "/var/lib/tor/state", .num 577]⟩ = .allow := by
  exact ⟨by decide, by decide, by decide, by decide⟩

/-! ### C10: stat64 rules cover open registrations -/

/-- C10: on platforms with the 32-bit `stat64` syscall, every path registered
for the open family (a protected entry with syscall `open`) also gets a
stat64 allow rule from `sb_stat64`, and the compiled filter therefore allows
`stat64` on that path. -/
theorem sb_stat64_covers_open :
    ∀ (p : Platform) (cfg : List (SmpParamG String)) (base : Nat)
      (f : String),
      p.hasStat64 = true →
      (⟨.real "open", f, none, true⟩ : SmpParamG String) ∈ cfg →
      (⟨"stat64", [⟨0, .eq, .str f⟩]⟩ : Rule) ∈
        (install_filter p cfg base).allows ∧
      decision (install_filter p cfg base) ⟨"stat64", [.str f]⟩ = .allow := by
  intro p cfg base f hst hmem
  have hrule : (⟨"stat64", [⟨0, .eq, .str f⟩]⟩ : Rule) ∈ sb_stat64 p cfg := by
    simp only [sb_stat64]
    refine List.mem_filterMap.2 ⟨⟨.real "open", f, none, true⟩, hmem, ?_⟩
    simp
  have hsb : sb_stat64 p cfg ∈ condList (filter_func p cfg) := by
    apply mem_condList_of_mem
    rw [← hst]
    simp [filter_func]
  have hpar : (⟨"stat64", [⟨0, .eq, .str f⟩]⟩ : Rule) ∈
      add_param_filter p cfg := by
    simp only [add_param_filter]
    exact List.mem_flatten.2 ⟨sb_stat64 p cfg, hsb, hrule⟩
  have hallow : (⟨"stat64", [⟨0, .eq, .str f⟩]⟩ : Rule) ∈
      (install_filter p cfg base).allows := by
    simp only [install_filter]
    exact List.mem_append.2 (Or.inl (List.mem_append.2 (Or.inr hpar)))
  refine ⟨hallow, ?_⟩
  have hkills : (install_filter p cfg base).kills.any
      (fun r => ruleMatches r ⟨"stat64", [.str f]⟩) = false := by
    simp [install_filter, prot_rules_kill, ruleMatches]
  have hany : (install_filter p cfg base).allows.any
      (fun r => ruleMatches r ⟨"stat64", [.str f]⟩) = true :=
    List.any_eq_true.2 ⟨_, hallow, by simp [ruleMatches, condHolds, holdsCmp]⟩
  unfold decision
  rw [hkills, hany]
  simp

/-- Witness for C10 at a concrete platform and registry. -/
theorem sb_stat64_covers_open_witness :
    (⟨"stat64", [⟨0, .eq, .str "/w"⟩]⟩ : Rule) ∈
      (install_filter { linux_x86_64 with hasStat64 := true }
        [⟨.real "open", "/w", none, true⟩] 4096).allows ∧
    decision (install_filter { linux_x86_64 with hasStat64 := true }
        [⟨.real "open", "/w", none, true⟩] 4096) ⟨"stat64", [.str "/w"]⟩ =
      .allow :=
  sb_stat64_covers_open { linux_x86_64 with hasStat64 := true }
    [⟨.real "open", "/w", none, true⟩] 4096 "/w" rfl (by simp)

/-- Witness for C7 at a concrete registry with a duplicated path. -/
theorem prot_strings_intern_idempotent_witness :
    prot_strings c7cfg = some (c7pes, c7st) ∧
    ((∀ p1 ∈ c7pes, ∀ p2 ∈ c7pes,
        ∀ f1 ∈ p1.value :: p1.value2.toList,
          ∀ f2 ∈ p2.value :: p2.value2.toList,
            f1.bytes = f2.bytes → f1.addr = f2.addr) ∧
      c7st.next = MALLOC_MP_LIM + sumSizes c7st.locations ∧
      (c7st.locations.map Prod.fst).Nodup) :=
  ⟨by decide, prot_strings_intern_idempotent c7cfg c7pes c7st (by decide)⟩

end Sandbox
